import Mathlib

/-!
# Verification of the documentProcessor core pipeline

Shallow embedding of the core components of the document-processing
repository, and proofs settling the frozen claims about them:

* `src/core/circuit_breaker.py` — the three-state circuit breaker,
* `src/core/result_cache.py` — the fingerprint-keyed result cache,
* `src/utils/pdf_chunker.py` — the page-range chunker and chunk combiner,
* `src/core/document_manager.py` — `DocumentManager.process_document`,
* `src/core/batch_processor.py` — the batch scheduler.

Modelling conventions:
* Python dicts with a fixed shape become Lean structures; a key that the
  code may leave absent becomes an `Option` field (`none` = absent).
* Wall-clock timestamps become `Nat` seconds passed explicitly.
* External collaborators (S3 download, the processor backends, the n8n
  webhook client) are oracles supplied as explicit parameters; their
  invocations are counted in an explicit trace so that "the processor was
  invoked exactly once" is a statement about the embedding.
* `md5(json.dumps(..., sort_keys=True))` in the cache-key derivation is
  modelled by the canonical tuple that is serialized, since the serialized
  dict has a fixed shape (the JSON encoding is injective on these fields
  and md5 is a deterministic function of the string; hash collisions are
  not modelled).
-/

set_option linter.unusedVariables false

/-! ## Circuit breaker (src/core/circuit_breaker.py) -/

/-- The three states of `CircuitState` in `circuit_breaker.py`. -/
inductive CircuitState
  | closed
  | opened
  | halfOpen
deriving DecidableEq, Repr

/-- `CircuitBreakerConfig` (timeout and the expected-exception tuple are kept
implicitly: outcomes of the wrapped call are given as a `CallOutcome`, where
`untrackedFailure` is an exception not in `expected_exceptions`). -/
structure CircuitBreakerConfig where
  failure_threshold : Nat := 5
  recovery_timeout : Nat := 60
  success_threshold : Nat := 3
deriving DecidableEq, Repr

/-- The mutable state of one `CircuitBreaker` instance, merging the fields of
the instance itself (`state`, `last_failure_time`) and its
`CircuitBreakerStats` (`stats_` prefix for the two stats timestamps that
shadow names of instance fields). -/
structure CircuitBreakerState where
  state : CircuitState := .closed
  last_failure_time : Option Nat := none
  total_requests : Nat := 0
  successful_requests : Nat := 0
  failed_requests : Nat := 0
  circuit_opened_count : Nat := 0
  current_consecutive_failures : Nat := 0
  current_consecutive_successes : Nat := 0
  stats_last_failure_time : Option Nat := none
  stats_last_success_time : Option Nat := none
deriving DecidableEq, Repr

/-- What the wrapped callable would do if executed: return normally, raise an
exception in `config.expected_exceptions`, or raise an unexpected one. -/
inductive CallOutcome
  | success
  | trackedFailure
  | untrackedFailure
deriving DecidableEq, Repr

/-- Observable outcome of `CircuitBreaker.call`: rejected with
`CircuitBreakerOpenException` without invoking the callable, or the callable
was executed with the given outcome (re-raised for failures). -/
inductive CallResult
  | rejectedOpen
  | ranSuccess
  | ranFailure
  | ranUntracked
deriving DecidableEq, Repr

/-- `CircuitBreaker._open_circuit`. -/
def _open_circuit (s : CircuitBreakerState) (now : Nat) : CircuitBreakerState :=
  { s with state := .opened
           last_failure_time := some now
           circuit_opened_count := s.circuit_opened_count + 1 }

/-- `CircuitBreaker._half_open_circuit`. -/
def _half_open_circuit (s : CircuitBreakerState) : CircuitBreakerState :=
  { s with state := .halfOpen
           current_consecutive_successes := 0 }

/-- `CircuitBreaker._close_circuit`. -/
def _close_circuit (s : CircuitBreakerState) : CircuitBreakerState :=
  { s with state := .closed
           current_consecutive_failures := 0
           current_consecutive_successes := 0 }

/-- `CircuitBreaker._should_attempt_reset`: true when `last_failure_time` was
never set, otherwise when `time.time() - last_failure_time` has reached
`recovery_timeout` (the subtraction is over the integers, as in Python). -/
def _should_attempt_reset (cfg : CircuitBreakerConfig) (s : CircuitBreakerState)
    (now : Nat) : Bool :=
  match s.last_failure_time with
  | none => true
  | some t => (cfg.recovery_timeout : Int) ≤ (now : Int) - (t : Int)

/-- `CircuitBreaker._record_success`. -/
def _record_success (cfg : CircuitBreakerConfig) (s : CircuitBreakerState)
    (now : Nat) : CircuitBreakerState :=
  let s1 := { s with successful_requests := s.successful_requests + 1
                     stats_last_success_time := some now
                     current_consecutive_failures := 0
                     current_consecutive_successes := s.current_consecutive_successes + 1 }
  if s1.state = .halfOpen ∧ cfg.success_threshold ≤ s1.current_consecutive_successes then
    _close_circuit s1
  else s1

/-- `CircuitBreaker._record_failure`. -/
def _record_failure (s : CircuitBreakerState) (now : Nat) : CircuitBreakerState :=
  let s1 := { s with failed_requests := s.failed_requests + 1
                     stats_last_failure_time := some now
                     current_consecutive_successes := 0
                     current_consecutive_failures := s.current_consecutive_failures + 1 }
  if s1.state = .halfOpen then _open_circuit s1 now else s1

/-- `CircuitBreaker.call`: the state check and transition performed under the
lock, followed (when not rejected) by executing the wrapped callable and
recording its outcome. `now` is the value of `time.time()` for this call. -/
def CircuitBreaker.call (cfg : CircuitBreakerConfig) (s : CircuitBreakerState)
    (now : Nat) (o : CallOutcome) : CallResult × CircuitBreakerState :=
  let s1 := { s with total_requests := s.total_requests + 1 }
  let s2 :=
    match s1.state with
    | .closed =>
        if cfg.failure_threshold ≤ s1.current_consecutive_failures then
          _open_circuit s1 now
        else s1
    | .opened =>
        if _should_attempt_reset cfg s1 now then _half_open_circuit s1 else s1
    | .halfOpen => s1
  if s2.state = .opened then
    (.rejectedOpen, s2)
  else
    match o with
    | .success => (.ranSuccess, _record_success cfg s2 now)
    | .trackedFailure => (.ranFailure, _record_failure s2 now)
    | .untrackedFailure => (.ranUntracked, s2)

/-- Run a sequence of calls (each a timestamp together with what the wrapped
callable would do), collecting the result of each call. -/
def runCalls (cfg : CircuitBreakerConfig) (s : CircuitBreakerState) :
    List (Nat × CallOutcome) → List CallResult × CircuitBreakerState
  | [] => ([], s)
  | (t, o) :: rest =>
      let p := CircuitBreaker.call cfg s t o
      let q := runCalls cfg p.2 rest
      (p.1 :: q.1, q.2)

/-- Fold a list of pure successes through `CircuitBreaker.call` (used to state
the `success_threshold` clause of the half-open behaviour). -/
def callSuccesses (cfg : CircuitBreakerConfig) (s : CircuitBreakerState)
    (times : List Nat) : CircuitBreakerState :=
  times.foldl (fun st t => (CircuitBreaker.call cfg st t .success).2) s

/-! ## Data model (src/models/document.py) and processing results -/

/-- `models.document.Document` (the fields the processing pipeline reads;
`last_modified`, `processed` and `processing_status` are never consulted by
the embedded operations and are omitted). `file_id` is the derived property
`document.etag`. -/
structure Document where
  s3_key : String
  filename : String
  file_size : Nat
  etag : String
  machine_names : Option (List String) := none
  document_type : Option String := none
deriving DecidableEq, Repr

/-- `Document.file_id`: the unique id is the content fingerprint (ETag). -/
def Document.file_id (d : Document) : String := d.etag

/-- The metadata dict handed to `DocumentManager.process_document`. Keys that
`metadata.get(...)` may find absent are `Option` fields; `basic` defaults to
`False` so it is modelled as a plain `Bool`. The Python dict could hold a
non-list under `machine_names`; the typed embedding restricts it to lists, so
the `isinstance(..., list)` branch of validation never fires. -/
structure Metadata where
  document_type : Option String := none
  machine_names : Option (List String) := none
  processing_method : Option String := none
  basic : Bool := false
deriving DecidableEq, Repr

/-- `processing_info` of a `ProcessingResult` as read by the orchestrator
(`result['processing_info']['success']`) and stored in the cache. -/
structure ProcessingInfo where
  success : Bool
  error : Option String := none
deriving DecidableEq, Repr

/-- A processor's `ProcessingResult` as the orchestrator and cache see it: the
orchestrator treats it opaquely apart from `processing_info.success`, so pages
are kept as opaque payload strings. -/
structure ProcessingResultD where
  pages : List String := []
  processing_info : ProcessingInfo
deriving DecidableEq, Repr

/-! ## Result cache (src/core/result_cache.py) -/

/-- The canonical content of the `cache_input` dict serialized by
`ResultCache._generate_cache_key`: ETag, `document_type` (default `''`),
`sorted(machine_names)` (default `[]`) and the `basic` flag (default
`False`). `md5(json.dumps(..., sort_keys=True))` is modelled by this tuple
itself (see the header note). -/
structure CacheKey where
  etag : String
  document_type : String
  machine_names : List String
  basic : Bool
deriving DecidableEq, Repr

/-- `CacheEntry` of `result_cache.py`; `created_at` is a timestamp in
seconds. -/
structure CacheEntry where
  document_etag : String
  document_type : String
  machine_names : List String
  processing_result : ProcessingResultD
  processor_used : String
  created_at : Nat
  file_size : Nat
  filename : String

/-- The state of a `ResultCache`: the age ceiling and the in-memory index
`_memory_cache` (authoritative for the process; the one-file-per-key disk
mirror adds no observable behaviour beyond persistence and is not
modelled). -/
structure ResultCache where
  max_age_hours : Nat := 24 * 7
  mem : CacheKey → Option CacheEntry

/-- `ResultCache._generate_cache_key`: Python's `sorted` on the machine-name
list is a stable comparison sort, embedded as `List.insertionSort (· ≤ ·)`. -/
def ResultCache._generate_cache_key (document : Document) (metadata : Metadata) : CacheKey :=
  { etag := document.etag
    document_type := metadata.document_type.getD ""
    machine_names := List.insertionSort (· ≤ ·) (metadata.machine_names.getD [])
    basic := metadata.basic }

/-- `ResultCache._is_expired`: `datetime.now() - created_at > timedelta(hours
= max_age_hours)`, with times in seconds (`now < created_at` is a negative
age and is not expired, matching the signed comparison in Python). -/
def ResultCache._is_expired (c : ResultCache) (entry : CacheEntry) (now : Nat) : Bool :=
  (c.max_age_hours : Int) * 3600 < (now : Int) - (entry.created_at : Int)

/-- `ResultCache._invalidate_entry`. -/
def ResultCache._invalidate_entry (c : ResultCache) (key : CacheKey) : ResultCache :=
  { c with mem := fun k => if k = key then none else c.mem k }

/-- `ResultCache.get`: returns the stored `processing_result` when the entry
exists, is not expired and its stored ETag still matches; evicts stale or
expired entries as a side effect (hence the updated cache in the pair). -/
def ResultCache.get (c : ResultCache) (document : Document) (metadata : Metadata)
    (now : Nat) : Option ProcessingResultD × ResultCache :=
  let cache_key := ResultCache._generate_cache_key document metadata
  match c.mem cache_key with
  | some entry =>
      if ResultCache._is_expired c entry now then
        (none, ResultCache._invalidate_entry c cache_key)
      else if entry.document_etag ≠ document.etag then
        (none, ResultCache._invalidate_entry c cache_key)
      else
        (some entry.processing_result, c)
  | none => (none, c)

/-- `ResultCache.set`: always overwrites the entry at the derived key. -/
def ResultCache.set (c : ResultCache) (document : Document) (metadata : Metadata)
    (processing_result : ProcessingResultD) (processor_used : String)
    (now : Nat) : ResultCache :=
  let cache_key := ResultCache._generate_cache_key document metadata
  let entry : CacheEntry :=
    { document_etag := document.etag
      document_type := metadata.document_type.getD ""
      machine_names := metadata.machine_names.getD []
      processing_result := processing_result
      processor_used := processor_used
      created_at := now
      file_size := document.file_size
      filename := document.filename }
  { c with mem := fun k => if k = cache_key then some entry else c.mem k }

/-! ## Document manager / orchestrator (src/core/document_manager.py) -/

/-- The list of accepted document types in
`DocumentManager.validate_document_metadata`. -/
def allowedDocumentTypes : List String :=
  ["manual", "diagram", "sparepartslist", "spreadsheet", "plain_document"]

/-- `ProcessorFactory.PROCESSOR_MAPPING` keys: the processing methods
`supports_processing_method` accepts. -/
def supportedProcessingMethods : List String := ["markdown", "plain_text"]

/-- `ProcessorFactory.get_processor_by_method`, restricted to the class name
of the processor it returns ('markdown' maps to `DataLabsProcessor`,
'plain_text' to `PyMuPDFProcessor`; any other method raises `ValueError`). -/
def get_processor_by_method (processing_method : String) : Option String :=
  if processing_method = "markdown" then some "DataLabsProcessor"
  else if processing_method = "plain_text" then some "PyMuPDFProcessor"
  else none

/-- `DocumentManager.validate_document_metadata`: the accumulated error list,
in evaluation order. An absent or empty machine-name list is falsy; an absent
or empty document type is falsy; the processing method defaults to
'markdown'. -/
def validate_document_metadata (metadata : Metadata) : List String :=
  (if metadata.machine_names.getD [] = [] then ["Machine names are required"] else [])
  ++ (match metadata.document_type with
      | none => ["Document type is required"]
      | some t =>
          if t = "" then ["Document type is required"]
          else if t ∈ allowedDocumentTypes then []
          else ["Unsupported document type: " ++ t])
  ++ (let pm := metadata.processing_method.getD "markdown"
      if pm ∈ supportedProcessingMethods then []
      else ["Unsupported processing method: " ++ pm])

/-- The dict returned by `N8nWebhookClient.send_*` as the orchestrator reads
it (`webhook_result['success']`, `webhook_result.get('error')`). -/
structure WebhookRes where
  success : Bool
  error : Option String := none
deriving DecidableEq, Repr

/-- What one collaborator call would do in this run: return a value or raise
(carrying `str(e)`). -/
def Collab (α : Type) := Except String α

/-- Environment of one `process_document` call: the oracle answers of the
external collaborators consulted during that call. `download` is the bytes
`s3.download_document` returns (`none` for `None`; `""` is the other falsy
value), `processorRun` what `processor.process` does, `webhookDoc` /
`webhookErr` what `send_document_processed` / `send_processing_error` do, and
`now` the wall-clock time of the call. -/
structure PDEnv where
  now : Nat
  download : Option String
  processorRun : Collab ProcessingResultD
  webhookDoc : Collab Bool
  webhookErr : Collab Bool

/-- Count of collaborator invocations made during one `process_document`
call. -/
structure PDTrace where
  downloads : Nat := 0
  processor_invocations : Nat := 0
  webhook_doc_calls : Nat := 0
  webhook_err_calls : Nat := 0
deriving DecidableEq, Repr

/-- The dict returned by `DocumentManager.process_document`; keys that some
branches omit are `Option` fields. -/
structure PDReturn where
  success : Bool
  error : Option String := none
  validation_errors : Option (List String) := none
  document_id : Option String := none
  processing_result : Option ProcessingResultD := none
  processor_used : Option String := none
  webhook_result : Option WebhookRes := none
  from_cache : Option Bool := none

/-- The `try/except` around a webhook send inside `process_document`: a raise
is caught and converted to `{'success': False, 'error': str(e)}`. -/
def runWebhook : Collab Bool → WebhookRes
  | .ok b => { success := b }
  | .error e => { success := false, error := some e }

/-- `document.document_type = metadata['document_type']`,
`document.machine_names = metadata['machine_names']` (performed after
validation passes). -/
def updateDocumentMeta (document : Document) (metadata : Metadata) : Document :=
  { document with document_type := metadata.document_type
                  machine_names := metadata.machine_names }

/-- `DocumentManager.process_document(document, metadata)`, returning the
result dict, the updated result cache, and the trace of collaborator
invocations. `n8n` is whether the n8n webhook client is configured.

Notes kept from the source:
* a cached result is consumed through `if cached_result:`; a stored
  `ProcessingResult` dict is non-empty, so in the embedding a cache hit is
  always truthy;
* `processing_status` (line 298) is computed but has no observable effect
  (results are not written to Supabase) and is not modelled;
* after validation, `processing_method` is one of the supported methods, so
  `get_processor_by_method` cannot raise on this path;
* a raise from `processor.process` is caught by the outer handler, which
  sends the error webhook and returns a failure dict without caching. -/
def process_document (env : PDEnv) (n8n : Bool) (cache : ResultCache)
    (document : Document) (metadata : Metadata) :
    PDReturn × ResultCache × PDTrace :=
  let validation_errors := validate_document_metadata metadata
  if validation_errors ≠ [] then
    ({ success := false, error := some "Validation failed",
       validation_errors := some validation_errors }, cache, {})
  else
    let document1 := updateDocumentMeta document metadata
    let hit := ResultCache.get cache document1 metadata env.now
    match hit.1 with
    | some cached_result =>
        let w := if n8n then some (runWebhook env.webhookDoc) else none
        ({ success := true, document_id := some document1.file_id,
           processing_result := some cached_result,
           processor_used := some "Cache",
           webhook_result := w, from_cache := some true },
         hit.2,
         { webhook_doc_calls := if n8n then 1 else 0 })
    | none =>
        match env.download with
        | none =>
            ({ success := false,
               error := some "Failed to download document content from S3" },
             hit.2, { downloads := 1 })
        | some content =>
            if content = "" then
              ({ success := false,
                 error := some "Failed to download document content from S3" },
               hit.2, { downloads := 1 })
            else
              let processing_method := metadata.processing_method.getD "markdown"
              let processorName :=
                (get_processor_by_method processing_method).getD "DataLabsProcessor"
              match env.processorRun with
              | .error e =>
                  let w := if n8n then some (runWebhook env.webhookErr) else none
                  ({ success := false, error := some e,
                     document_id := some document1.file_id,
                     webhook_result := w },
                   hit.2,
                   { downloads := 1, processor_invocations := 1,
                     webhook_err_calls := if n8n then 1 else 0 })
              | .ok result =>
                  let cache2 :=
                    ResultCache.set hit.2 document1 metadata result processorName env.now
                  let w := if n8n then some (runWebhook env.webhookDoc) else none
                  ({ success := true, document_id := some document1.file_id,
                     processing_result := some result,
                     processor_used := some processorName,
                     webhook_result := w, from_cache := some false },
                   cache2,
                   { downloads := 1, processor_invocations := 1,
                     webhook_doc_calls := if n8n then 1 else 0 })

/-! ## PDF chunker (src/utils/pdf_chunker.py, class PDFChunker) -/

/-- The page-range part of a `ChunkInfo` (`chunk_id` is
`"{filename}_chunk_{n}"`; content bytes carry no information the claims
observe, so a chunk is its number and its 1-based inclusive page range). -/
structure ChunkRange where
  chunk_number : Nat
  start_page : Nat
  end_page : Nat
deriving DecidableEq, Repr

/-- The page-walking loop of `PDFChunker.chunk_pdf`. A page is represented by
its serialized byte size (the single-page PDF written to the temp buffer).
State mirrors the Python locals: `pageNum` is the 0-based index of the next
page, `curCount` the length of `current_chunk_pages`, `curSize` the byte
total `current_chunk_size`, `counter` the 1-based `chunk_counter`, and
`startPage` the 0-based `chunk_start_page`. `_create_chunk` records
`start_page + 1` and `end_page + 1` (1-based numbering). -/
def chunkGo (maxBytes : Nat) : List Nat → Nat → Nat → Nat → Nat → Nat →
    List ChunkRange → List ChunkRange
  | [], pageNum, curCount, curSize, counter, startPage, acc =>
      if curCount ≠ 0 then
        acc ++ [⟨counter, startPage + 1, startPage + curCount - 1 + 1⟩]
      else acc
  | s :: rest, pageNum, curCount, curSize, counter, startPage, acc =>
      if maxBytes < curSize + s ∧ curCount ≠ 0 then
        chunkGo maxBytes rest (pageNum + 1) 1 s (counter + 1) pageNum
          (acc ++ [⟨counter, startPage + 1, startPage + curCount - 1 + 1⟩])
      else
        chunkGo maxBytes rest (pageNum + 1) (curCount + 1) (curSize + s) counter startPage acc

/-- `PDFChunker.chunk_pdf` on a PDF whose pages serialize to the given byte
sizes: walk the pages accumulating the current chunk, sealing it when adding
the next page would exceed the ceiling (`current_chunk_size + page_size >
max_chunk_size_bytes`) and the current chunk is non-empty. -/
def chunk_pdf (maxBytes : Nat) (pageSizes : List Nat) : List ChunkRange :=
  chunkGo maxBytes pageSizes 0 0 0 1 0 []

/-- `covers lo cs hi`: the 1-based inclusive ranges of `cs`, in order,
partition `[lo, hi]` exactly — the first chunk starts at `lo`, each chunk is
non-empty and each subsequent chunk starts right after its predecessor, and
the last chunk ends at `hi` (an empty list covers the empty range
`[lo, lo-1]`). -/
def covers (lo : Nat) : List ChunkRange → Nat → Prop
  | [], hi => hi + 1 = lo
  | c :: rest, hi =>
      c.start_page = lo ∧ lo ≤ c.end_page ∧ covers (c.end_page + 1) rest hi

instance : ∀ (lo : Nat) (cs : List ChunkRange) (hi : Nat), Decidable (covers lo cs hi) := by
  intro lo cs
  induction cs generalizing lo with
  | nil => intro hi; simp only [covers]; infer_instance
  | cons c rest ih =>
      intro hi
      simp only [covers]
      have : Decidable (covers (c.end_page + 1) rest hi) := ih _ _
      infer_instance

/-! ## Chunk combiner (src/utils/pdf_chunker.py, class ChunkProcessor) -/

/-- The chunk-traceability dict `page['chunk_info']` that
`combine_chunk_results` attaches to every combined page. -/
structure PageChunkTrace where
  chunk_id : String
  chunk_page_number : Nat
  original_page_number : Nat
deriving DecidableEq, Repr

/-- A page dict inside a chunk's processing result, with the keys the
combiner reads (`page_number`, `page_id`, `text`) and writes
(`chunk_info`). -/
structure PageD where
  page_number : Nat
  page_id : String
  text : String := ""
  chunk_info : Option PageChunkTrace := none
deriving DecidableEq, Repr

/-- `processing_info['chunk_details']` as read for the error summary
(`chunk_details.get('page_range', ...)`). -/
structure ChunkDetailsD where
  page_range : Option String := none
deriving DecidableEq, Repr

/-- `processing_info` of one chunk's result as the combiner reads it. -/
structure ChunkProcInfo where
  success : Bool
  error : Option String := none
  error_type : Option String := none
  chunk_details : Option ChunkDetailsD := none
deriving DecidableEq, Repr

/-- The `chunk_info` dict attached to one chunk's processing result
(mirroring the fields of `ChunkInfo` read by the combiner). -/
structure ChunkInfoD where
  chunk_id : String
  start_page : Nat
  end_page : Nat
deriving DecidableEq, Repr

/-- One element of `chunk_results` passed to
`ChunkProcessor.combine_chunk_results`; `document_type_meta` is
`document_metadata.document_type` of the chunk (only the first chunk's is
read). -/
structure ChunkResultD where
  pages : List PageD := []
  processing_info : ChunkProcInfo
  chunk_info : Option ChunkInfoD := none
  document_type_meta : Option String := none
deriving DecidableEq, Repr

/-- `processing_info` of the combined result (keys the combiner writes;
`errors` is `None` when no error strings were collected, and the two
warnings are only present when set). -/
structure CombinedInfo where
  success : Bool
  total_pages : Nat := 0
  pages_with_content : Nat := 0
  chunks_processed : Nat := 0
  successful_chunks : Nat := 0
  failed_chunks : Nat := 0
  errors : Option (List String) := none
  error : Option String := none
  page_number_warning : Option String := none
  page_count_warning : Option String := none
deriving DecidableEq, Repr

/-- The combined result dict (`document_metadata` flattened into the
`filename` / `total_chunks` / `successful_chunks` / `failed_chunks` /
`document_type` fields it carries). -/
structure CombinedResultD where
  pages : List PageD
  filename : String
  total_chunks : Nat
  successful_chunks : Nat
  failed_chunks : Nat
  document_type : String
  processing_info : CombinedInfo
deriving DecidableEq, Repr

/-- The page-number cap: `if max_expected_pages and original_page_num >
max_expected_pages: original_page_num = min(original_page_num,
max_expected_pages)` — no cap when `max_expected_pages` is `None` or `0`
(falsy). -/
def pyClampPage (maxExpected : Option Nat) (n : Nat) : Nat :=
  match maxExpected with
  | some m => if m ≠ 0 ∧ m < n then m else n
  | none => n

/-- Python's `'sep'.join(parts)`. -/
def pyJoin (sep : String) : List String → String
  | [] => ""
  | [s] => s
  | s :: rest => s ++ sep ++ pyJoin sep rest

/-- The per-page rewrite inside the successful-chunk branch of the combiner
loop: page `j` (0-based within the chunk) gets `original_start_page + j`,
capped, as its `page_number`, the matching `page_id`, and a traceability
`chunk_info` (whose `chunk_id` falls back to `'chunk_{i+1}'` when the chunk
result carries no `chunk_info`). -/
def renumberPage (maxExpected : Option Nat) (chunkIdDefault : String)
    (ci : Option ChunkInfoD) (startPage j : Nat) (p : PageD) : PageD :=
  let n := pyClampPage maxExpected (startPage + j)
  { p with page_number := n
           page_id := "page_" ++ toString n
           chunk_info := some ⟨(ci.map (·.chunk_id)).getD chunkIdDefault, j + 1, n⟩ }

/-- `for j, page in enumerate(chunk_pages)` applying `renumberPage`. -/
def renumberPages (maxExpected : Option Nat) (chunkIdDefault : String)
    (ci : Option ChunkInfoD) (startPage : Nat) : Nat → List PageD → List PageD
  | _, [] => []
  | j, p :: ps =>
      renumberPage maxExpected chunkIdDefault ci startPage j p ::
        renumberPages maxExpected chunkIdDefault ci startPage (j + 1) ps

/-- The main loop of `combine_chunk_results` over `enumerate(chunk_results)`:
returns (combined pages, successful-chunk count, failed-chunk count, error
messages in collection order). `i` is the enumeration index and `cur` the
running `current_page_number` (used as the fallback start page for a chunk
without `chunk_info`; a failed chunk with `chunk_info` advances it to
`end_page + 1`). The duplicate-page-number set is only logged and is not
modelled. -/
def combineGo (maxExpected : Option Nat) :
    Nat → Nat → List ChunkResultD → List PageD × Nat × Nat × List String
  | _, _, [] => ([], 0, 0, [])
  | i, cur, cr :: rest =>
      if cr.processing_info.success then
        let startPage := (cr.chunk_info.map (·.start_page)).getD cur
        let newPages :=
          renumberPages maxExpected ("chunk_" ++ toString (i + 1)) cr.chunk_info startPage 0 cr.pages
        let r := combineGo maxExpected (i + 1) (cur + cr.pages.length) rest
        (newPages ++ r.1, r.2.1 + 1, r.2.2.1, r.2.2.2)
      else
        let errMsg := cr.processing_info.error.getD ("Chunk " ++ toString (i + 1) ++ " failed")
        let cur1 :=
          match cr.chunk_info with
          | some ci => ci.end_page + 1
          | none => cur
        let r := combineGo maxExpected (i + 1) cur1 rest
        (r.1, r.2.1, r.2.2.1 + 1, errMsg :: r.2.2.2)

/-- One line of the per-chunk error summary built when the combined result is
not successful: `"Chunk {i+1} (pages {page_range}): {error_type} -
{error_msg}"`, with the fallbacks used by the code. -/
def chunkErrorDetail (i : Nat) (cr : ChunkResultD) : String :=
  let page_range :=
    ((cr.processing_info.chunk_details.bind (·.page_range)).getD
      ("chunk " ++ toString (i + 1)))
  "Chunk " ++ toString (i + 1) ++ " (pages " ++ page_range ++ "): "
    ++ cr.processing_info.error_type.getD "Unknown" ++ " - "
    ++ cr.processing_info.error.getD "Unknown error"

/-- The failing-chunk pass that collects `error_details` (enumeration index
threaded through). -/
def errorDetailsGo (i : Nat) : List ChunkResultD → List String
  | [] => []
  | cr :: rest =>
      if cr.processing_info.success then errorDetailsGo (i + 1) rest
      else chunkErrorDetail i cr :: errorDetailsGo (i + 1) rest

/-- `error_details` over all of `chunk_results`. -/
def errorDetails (crs : List ChunkResultD) : List String := errorDetailsGo 0 crs

/-- `max([p.get('page_number', 0) for p in combined_pages])` with 0 for the
empty list. -/
def maxPageNumber (pages : List PageD) : Nat :=
  pages.foldr (fun p m => max p.page_number m) 0

/-- The `if max_expected_pages:` validation block at the end of
`combine_chunk_results`: attaches the two warnings (each only when exceeded)
to the combined `processing_info`; no warnings when `max_expected_pages` is
`None` or `0` (falsy). -/
def combineAddWarnings (maxExpected : Option Nat) (combined_pages : List PageD)
    (info : CombinedInfo) : CombinedInfo :=
  match maxExpected with
  | some m =>
      if m ≠ 0 then
        { info with
            page_number_warning :=
              if m < maxPageNumber combined_pages then
                some ("Page numbers exceed expected count: "
                  ++ toString (maxPageNumber combined_pages) ++ " > " ++ toString m)
              else none
            page_count_warning :=
              if m < combined_pages.length then
                some ("Page count exceeds expected: "
                  ++ toString combined_pages.length ++ " > " ++ toString m)
              else none }
      else info
  | none => info

/-- The `if not overall_success:` block at the end of
`combine_chunk_results`: attaches the concatenated per-chunk error summary
when not all chunks succeeded. -/
def combineAddError (overall_success : Bool) (failed_chunks : Nat)
    (chunk_results : List ChunkResultD) (info : CombinedInfo) : CombinedInfo :=
  if overall_success then info
  else
    { info with
        error := some ("Processing failed: " ++ toString failed_chunks ++ " of "
          ++ toString chunk_results.length ++ " chunks failed. Details: "
          ++ pyJoin "; " (errorDetails chunk_results)) }

/-- `ChunkProcessor.combine_chunk_results(chunk_results, original_filename,
max_expected_pages)`. The empty-input branch returns the fixed failure dict;
otherwise the loop result is assembled, the two warnings are added when
`max_expected_pages` is truthy and exceeded, and when not all chunks
succeeded the concatenated per-chunk error summary is attached. -/
def combine_chunk_results (chunk_results : List ChunkResultD)
    (original_filename : String) (maxExpected : Option Nat) : CombinedResultD :=
  match chunk_results with
  | [] =>
      { pages := [], filename := original_filename, total_chunks := 0,
        successful_chunks := 0, failed_chunks := 0, document_type := "unknown",
        processing_info :=
          { success := false, error := some "No chunk results provided" } }
  | first :: _ =>
      let r := combineGo maxExpected 0 1 chunk_results
      let combined_pages := r.1
      let successful_chunks := r.2.1
      let failed_chunks := r.2.2.1
      let errors := r.2.2.2
      let overall_success : Bool := 0 < successful_chunks ∧ failed_chunks = 0
      let base : CombinedInfo :=
        { success := overall_success
          total_pages := combined_pages.length
          pages_with_content := (combined_pages.filter (fun p => p.text.trim ≠ "")).length
          chunks_processed := chunk_results.length
          successful_chunks := successful_chunks
          failed_chunks := failed_chunks
          errors := if errors = [] then none else some errors }
      { pages := combined_pages, filename := original_filename,
        total_chunks := chunk_results.length,
        successful_chunks := successful_chunks, failed_chunks := failed_chunks,
        document_type := first.document_type_meta.getD "unknown",
        processing_info :=
          combineAddError overall_success failed_chunks chunk_results
            (combineAddWarnings maxExpected combined_pages base) }

/-! ## Batch scheduler (src/core/batch_processor.py) -/

/-- One element of `documents_with_metadata`. -/
structure DocItem where
  document : Document
  metadata : Metadata
deriving DecidableEq, Repr

/-- The entry `_process_single_document` returns (appended into the
`successful` or `failed` list according to its `success` flag). Fields not
consulted by the claims (`processor_used`, `processing_time`, `from_cache`,
`webhook_sent`) are carried only through `success`, `document_id`,
`filename`, `error`. -/
structure SingleResult where
  success : Bool
  document_id : String
  filename : String
  error : Option String := none
deriving DecidableEq, Repr

/-- `BatchProcessor._process_single_document`: runs
`document_manager.process_document` (given here as the oracle `pd`, which may
also raise — the surrounding `try` catches any exception and converts it to a
failure entry), then classifies by the returned dict's `success` flag. The
thread-safe counters and the progress callback have no effect on the returned
entry and are not modelled. -/
def processSingleDocument (pd : DocItem → Collab PDReturn) (item : DocItem) : SingleResult :=
  match pd item with
  | .error e =>
      { success := false, document_id := item.document.file_id,
        filename := item.document.filename, error := some e }
  | .ok result =>
      if result.success then
        { success := true, document_id := item.document.file_id,
          filename := item.document.filename }
      else
        { success := false, document_id := item.document.file_id,
          filename := item.document.filename,
          error := some (result.error.getD "Unknown error") }

/-- `LEGACY_DOCUMENT_TYPE_MAPPING` lookup used by
`_group_by_processor_type` (via the deprecated
`processor_factory.get_processor`); an unmapped type raises `ValueError`,
which the caller catches and replaces by the group name 'Unknown'. -/
def legacyProcessorType (document_type : String) : String :=
  if document_type = "manual" then "DataLabsProcessor"
  else if document_type = "diagram" then "PyMuPDFProcessor"
  else if document_type = "sparepartslist" then "DataLabsProcessor"
  else if document_type = "spreadsheet" then "DataLabsProcessor"
  else if document_type = "plain_document" then "PyMuPDFProcessor"
  else "Unknown"

/-- The processor-group name of one batch item:
`item['metadata'].get('document_type', 'unknown')` resolved through the
legacy mapping. -/
def processorTypeOf (item : DocItem) : String :=
  legacyProcessorType (item.metadata.document_type.getD "unknown")

/-- Group keys in Python-dict insertion order: first occurrence of each
processor-type name in batch order. -/
def firstOccurrences : List String → List String
  | [] => []
  | k :: rest => k :: (firstOccurrences rest).filter (fun x => x ≠ k)

/-- `BatchProcessor._get_processor_concurrency` (every name other than the
two processor classes, including 'Unknown', gets concurrency 1). -/
def getProcessorConcurrency (maxDocs maxProcs : Nat) (processor_type : String) : Nat :=
  if processor_type = "DataLabsProcessor" then min maxDocs 4
  else if processor_type = "PyMuPDFProcessor" then min maxProcs 2
  else 1

/-- Joint result of processing one processor group: the classified entries,
the units whose processing actually executed (side effects happened), and the
cancellation-check counter after the group. -/
structure GroupOutcome where
  successful : List SingleResult
  failed : List SingleResult
  executed : List DocItem
  checks : Nat
deriving Repr

/-- The cooperative cancellation flag. It is set once by `cancel_batch` from
another thread and never cleared during a batch, so it is modelled as a
monotone predicate on the global sequence of flag reads: `cancel c` is the
value read by check number `c`. -/
def CancelFlag := Nat → Bool

/-- The `concurrency == 1` branch of `_process_processor_group`: strictly
sequential, reading the cancellation flag once before each unit and breaking
when it is set. -/
def groupSeq (run : DocItem → SingleResult) (cancel : CancelFlag) :
    Nat → List DocItem → GroupOutcome
  | c, [] => ⟨[], [], [], c⟩
  | c, d :: rest =>
      if cancel c then ⟨[], [], [], c + 1⟩
      else
        let r := run d
        let o := groupSeq run cancel (c + 1) rest
        if r.success then ⟨r :: o.successful, o.failed, d :: o.executed, o.checks⟩
        else ⟨o.successful, r :: o.failed, d :: o.executed, o.checks⟩

/-- The collection loop over `as_completed(...)`: the flag is read once
before collecting each completed unit's result; on break the futures already
collected keep their classification and the rest are dropped. -/
def collectLoop (cancel : CancelFlag) :
    Nat → List SingleResult → List SingleResult × List SingleResult × Nat
  | c, [] => ([], [], c)
  | c, r :: rest =>
      if cancel c then ([], [], c + 1)
      else
        let o := collectLoop cancel (c + 1) rest
        if r.success then (r :: o.1, o.2.1, o.2.2) else (o.1, r :: o.2.1, o.2.2)

/-- The `concurrency > 1` branch of `_process_processor_group`: every unit of
the group is submitted to the `ThreadPoolExecutor` up front, so every unit
executes regardless of the flag (`shutdown(wait=True)` on leaving the `with`
block waits for queued futures and does not cancel them) — hence
`executed := docs`. Results arrive in the completion order `completed` (a
permutation of the group chosen by the scheduler) and are collected until the
flag is observed. The `except` branch of the collection loop is unreachable
because `_process_single_document` catches all exceptions. -/
def groupPar (run : DocItem → SingleResult) (cancel : CancelFlag) (c : Nat)
    (docs : List DocItem) (completed : List DocItem) : GroupOutcome :=
  let results := completed.map run
  let o := collectLoop cancel c results
  ⟨o.1, o.2.1, docs, o.2.2⟩

/-- `BatchProcessor._process_processor_group`: sequential when the group's
concurrency is 1, otherwise the bounded worker pool. `reorder` is the
completion order of the pool (a permutation of its argument). -/
def processProcessorGroup (run : DocItem → SingleResult) (cancel : CancelFlag)
    (reorder : List DocItem → List DocItem) (c : Nat) (docs : List DocItem)
    (concurrency : Nat) : GroupOutcome :=
  if concurrency = 1 then groupSeq run cancel c docs
  else groupPar run cancel c docs (reorder docs)

/-- Result of `BatchProcessor.process_batch` (the fields the claims observe;
timing and cache-hit counters are not modelled). -/
structure BatchOutcome where
  successful : List SingleResult
  failed : List SingleResult
  executed : List DocItem
  checks : Nat
deriving Repr

/-- The group loop of `process_batch`: for each processor-type key in
insertion order, read the flag once (the `if self._cancelled: break` at the
top of the loop body) and process the group of all items with that
processor type. -/
def batchGroupsLoop (run : DocItem → SingleResult) (cancel : CancelFlag)
    (reorder : List DocItem → List DocItem) (conc : String → Nat)
    (items : List DocItem) : Nat → List String → BatchOutcome
  | c, [] => ⟨[], [], [], c⟩
  | c, k :: ks =>
      if cancel c then ⟨[], [], [], c + 1⟩
      else
        let docs := items.filter (fun it => processorTypeOf it = k)
        let g := processProcessorGroup run cancel reorder (c + 1) docs (conc k)
        let rest := batchGroupsLoop run cancel reorder conc items g.checks ks
        ⟨g.successful ++ rest.successful, g.failed ++ rest.failed,
         g.executed ++ rest.executed, rest.checks⟩

/-- `BatchProcessor.process_batch(documents_with_metadata)`: group by
processor type (dict insertion order), then process each group with its
concurrency, extending the `successful` / `failed` lists. -/
def process_batch (run : DocItem → SingleResult) (cancel : CancelFlag)
    (reorder : List DocItem → List DocItem) (maxDocs maxProcs : Nat)
    (items : List DocItem) : BatchOutcome :=
  batchGroupsLoop run cancel reorder (getProcessorConcurrency maxDocs maxProcs)
    items 0 (firstOccurrences (items.map processorTypeOf))

/-! ## Alignment predicate for combined chunk results -/

/-- `ChunksAligned s crs`: every chunk result is successful, carries a
`chunk_info`, the recorded ranges are contiguous starting at `s`, and each
chunk contributed exactly as many pages as its recorded range spans (the
hypotheses of claim C7). -/
def ChunksAligned : Nat → List ChunkResultD → Prop
  | _, [] => True
  | s, cr :: rest =>
      cr.processing_info.success = true ∧
      ∃ ci, cr.chunk_info = some ci ∧ ci.start_page = s ∧ s ≤ ci.end_page ∧
        cr.pages.length = ci.end_page + 1 - s ∧
        ChunksAligned (ci.end_page + 1) rest

/-- Example chunk results used by concrete witnesses: a successful two-page
chunk for pages 1-2. -/
def exampleChunk1 : ChunkResultD :=
  { pages := [{ page_number := 1, page_id := "p", text := "a" },
              { page_number := 2, page_id := "q", text := "b" }],
    processing_info := { success := true },
    chunk_info := some ⟨"c1", 1, 2⟩ }

/-- Example chunk results used by concrete witnesses: a failed chunk for
pages 3-4 with a timeout error. -/
def exampleChunk2 : ChunkResultD :=
  { pages := [],
    processing_info :=
      { success := false, error := some "boom", error_type := some "Timeout",
        chunk_details := some { page_range := some "3-4" } },
    chunk_info := some ⟨"c2", 3, 4⟩ }

/-- Example chunk results used by concrete witnesses: a successful one-page
chunk for page 5. -/
def exampleChunk3 : ChunkResultD :=
  { pages := [{ page_number := 1, page_id := "r", text := "c" }],
    processing_info := { success := true },
    chunk_info := some ⟨"c3", 5, 5⟩ }

/-- Example chunk results used by concrete witnesses: a successful two-page
chunk for pages 3-4 (contiguous after `exampleChunk1`). -/
def exampleChunk4 : ChunkResultD :=
  { pages := [{ page_number := 1, page_id := "s", text := "d" },
              { page_number := 2, page_id := "t", text := "e" }],
    processing_info := { success := true },
    chunk_info := some ⟨"c4", 3, 4⟩ }

/-- A cooperative cancellation flag that turns true at global check number
`N` and stays true (every monotone flag — set once, never cleared — has this
threshold form). -/
def cancelAtCheck (N : Nat) : CancelFlag := fun n => decide (N ≤ n)

/-- Example batch items used by concrete witnesses. -/
def exampleItemA : DocItem :=
  { document := { s3_key := "a", filename := "a.pdf", file_size := 1, etag := "ea" },
    metadata := { document_type := some "manual", machine_names := some ["m"] } }

/-- Example batch items used by concrete witnesses. -/
def exampleItemB : DocItem :=
  { document := { s3_key := "b", filename := "b.pdf", file_size := 1, etag := "eb" },
    metadata := { document_type := some "manual", machine_names := some ["m"] } }

/-- Example batch items used by concrete witnesses. -/
def exampleItemC : DocItem :=
  { document := { s3_key := "c", filename := "c.pdf", file_size := 1, etag := "ec" },
    metadata := { document_type := some "diagram", machine_names := some ["m"] } }

/-- Example per-unit outcome used by concrete witnesses: every unit
succeeds. -/
def exampleRunOk : DocItem → SingleResult := fun it =>
  { success := true, document_id := it.document.file_id,
    filename := it.document.filename }

/-! ## Helper lemmas: circuit breaker -/

/-- In the closed state with the consecutive-failure count at or past the
threshold, a call opens the circuit and is rejected without executing. -/
theorem call_closed_over_threshold (cfg : CircuitBreakerConfig) (s : CircuitBreakerState)
    (now : Nat) (o : CallOutcome) (hs : s.state = .closed)
    (hf : cfg.failure_threshold ≤ s.current_consecutive_failures) :
    (CircuitBreaker.call cfg s now o).1 = .rejectedOpen ∧
    (CircuitBreaker.call cfg s now o).2.state = .opened := by
  simp [CircuitBreaker.call, _open_circuit, hs, hf]

/-- In the open state, once `recovery_timeout` has elapsed since
`last_failure_time`, a call moves the breaker to half-open (visible in the
post-state of an untracked outcome, which records nothing further). -/
theorem call_opened_reset_halfOpen (cfg : CircuitBreakerConfig) (s : CircuitBreakerState)
    (now t : Nat) (hs : s.state = .opened)
    (ht : s.last_failure_time = some t)
    (helapsed : (cfg.recovery_timeout : Int) ≤ (now : Int) - (t : Int)) :
    (CircuitBreaker.call cfg s now .untrackedFailure).2.state = .halfOpen := by
  simp [CircuitBreaker.call, _should_attempt_reset, _half_open_circuit, hs, ht, helapsed]

/-- In the open state, once `recovery_timeout` has elapsed since
`last_failure_time`, the wrapped callable is executed (the call result
reflects the callable's outcome instead of a rejection). -/
theorem call_opened_reset_executes (cfg : CircuitBreakerConfig) (s : CircuitBreakerState)
    (now t : Nat) (o : CallOutcome) (hs : s.state = .opened)
    (ht : s.last_failure_time = some t)
    (helapsed : (cfg.recovery_timeout : Int) ≤ (now : Int) - (t : Int)) :
    (CircuitBreaker.call cfg s now o).1 =
      (match o with
       | .success => CallResult.ranSuccess
       | .trackedFailure => CallResult.ranFailure
       | .untrackedFailure => CallResult.ranUntracked) := by
  cases o <;> simp [CircuitBreaker.call, _should_attempt_reset, _half_open_circuit, hs, ht, helapsed]

/-- One successful call in the half-open state: closes the breaker exactly
when the incremented consecutive-success count reaches the threshold. -/
theorem halfOpen_success_step (cfg : CircuitBreakerConfig) (s : CircuitBreakerState)
    (now : Nat) (hs : s.state = .halfOpen) :
    ((CircuitBreaker.call cfg s now .success).2.state =
       if cfg.success_threshold ≤ s.current_consecutive_successes + 1 then .closed else .halfOpen)
    ∧ ((CircuitBreaker.call cfg s now .success).2.current_consecutive_successes =
       if cfg.success_threshold ≤ s.current_consecutive_successes + 1 then 0
       else s.current_consecutive_successes + 1) := by
  simp [CircuitBreaker.call, _record_success, _close_circuit, hs]
  split <;> simp

/-- From half-open, a run of consecutive successes whose length brings the
consecutive-success count to `success_threshold` closes the breaker. -/
theorem half_open_success_run (cfg : CircuitBreakerConfig) :
    ∀ (times : List Nat) (s : CircuitBreakerState), s.state = .halfOpen →
      s.current_consecutive_successes + times.length = cfg.success_threshold →
      times ≠ [] →
      (callSuccesses cfg s times).state = .closed := by
  intro times
  induction times with
  | nil => intro s _ _ hne; exact absurd rfl hne
  | cons t rest ih =>
      intro s hs hlen _
      have hstep := halfOpen_success_step cfg s t hs
      rcases rest with _ | ⟨t2, rest2⟩
      · have hth : cfg.success_threshold ≤ s.current_consecutive_successes + 1 := by
          simp at hlen; omega
        simp [callSuccesses] at hstep ⊢
        simp [hth] at hstep
        exact hstep.1
      · have hth : ¬ cfg.success_threshold ≤ s.current_consecutive_successes + 1 := by
          simp at hlen; omega
        simp [hth] at hstep
        have := ih (CircuitBreaker.call cfg s t .success).2 hstep.1 (by simp at hlen ⊢; omega) (by simp)
        simpa [callSuccesses] using this

/-- A single tracked failure in the half-open state executes the callable
(re-raising) and reopens the circuit. -/
theorem call_halfOpen_failure (cfg : CircuitBreakerConfig) (s : CircuitBreakerState)
    (now : Nat) (hs : s.state = .halfOpen) :
    (CircuitBreaker.call cfg s now .trackedFailure).1 = .ranFailure ∧
    (CircuitBreaker.call cfg s now .trackedFailure).2.state = .opened := by
  simp [CircuitBreaker.call, _record_failure, _open_circuit, hs]

/-! ## Claim C2 -/

/-- C2, counterexample. The claim's recovery clause — "while open, once at
least `recovery_timeout` seconds have elapsed since the last failure, the
next call transitions to half-open and executes the callable" — is false on
the code: `_should_attempt_reset` measures from `self.last_failure_time`,
which is stamped in `_open_circuit` at the moment the breaker opens, not at
the last tracked failure. With `failure_threshold = 1`, `recovery_timeout =
60`: a tracked failure at time 0, then a call at time 100 (which opens the
breaker and is rejected, stamping `last_failure_time = 100`) and a call at
time 159. At time 159, 159 ≥ 60 seconds have elapsed since the last failure
(time 0, as recorded in the stats), the breaker is open, yet the call is
rejected without executing the callable instead of transitioning to
half-open. -/
theorem circuit_breaker_recovery_counterexample :
    (runCalls { failure_threshold := 1, recovery_timeout := 60, success_threshold := 1 } {}
        [(0, .trackedFailure), (100, .success), (159, .success)]).1 =
      [CallResult.ranFailure, CallResult.rejectedOpen, CallResult.rejectedOpen] ∧
    (runCalls { failure_threshold := 1, recovery_timeout := 60, success_threshold := 1 } {}
        [(0, .trackedFailure), (100, .success)]).2.state = CircuitState.opened ∧
    (runCalls { failure_threshold := 1, recovery_timeout := 60, success_threshold := 1 } {}
        [(0, .trackedFailure), (100, .success)]).2.stats_last_failure_time = some 0 ∧
    ((60 : Int) ≤ (159 : Int) - (0 : Int)) := by
  refine ⟨by decide, by decide, by decide, by decide⟩

/-- C2, amended: the three-state machine as implemented. (1) In the closed
state, once the consecutive-tracked-failure count has reached
`failure_threshold`, the next call opens the breaker and raises a
circuit-open error without invoking the wrapped callable. (2) While open,
once at least `recovery_timeout` seconds have elapsed since the breaker last
transitioned to open (`last_failure_time`, stamped by `_open_circuit`; this
coincides with the failure time when a half-open failure reopened the
breaker), the next call transitions to half-open and executes the callable.
(3) From a freshly half-open breaker, `success_threshold` consecutive
successes transition it to closed. (4) A single tracked failure in half-open
transitions it back to open. -/
theorem circuit_breaker_state_machine :
    (∀ (cfg : CircuitBreakerConfig) (s : CircuitBreakerState) (now : Nat) (o : CallOutcome),
       s.state = .closed → cfg.failure_threshold ≤ s.current_consecutive_failures →
       (CircuitBreaker.call cfg s now o).1 = .rejectedOpen ∧
       (CircuitBreaker.call cfg s now o).2.state = .opened) ∧
    (∀ (cfg : CircuitBreakerConfig) (s : CircuitBreakerState) (now t : Nat) (o : CallOutcome),
       s.state = .opened → s.last_failure_time = some t →
       (cfg.recovery_timeout : Int) ≤ (now : Int) - (t : Int) →
       (CircuitBreaker.call cfg s now o).1 =
         (match o with
          | .success => CallResult.ranSuccess
          | .trackedFailure => CallResult.ranFailure
          | .untrackedFailure => CallResult.ranUntracked) ∧
       (CircuitBreaker.call cfg s now .untrackedFailure).2.state = .halfOpen) ∧
    (∀ (cfg : CircuitBreakerConfig) (s : CircuitBreakerState) (times : List Nat),
       s.state = .halfOpen → s.current_consecutive_successes = 0 →
       times.length = cfg.success_threshold → 1 ≤ cfg.success_threshold →
       (callSuccesses cfg s times).state = .closed) ∧
    (∀ (cfg : CircuitBreakerConfig) (s : CircuitBreakerState) (now : Nat),
       s.state = .halfOpen →
       (CircuitBreaker.call cfg s now .trackedFailure).1 = .ranFailure ∧
       (CircuitBreaker.call cfg s now .trackedFailure).2.state = .opened) := by
  refine ⟨?_, ?_, ?_, ?_⟩
  · intro cfg s now o hs hf
    exact call_closed_over_threshold cfg s now o hs hf
  · intro cfg s now t o hs ht helapsed
    exact ⟨call_opened_reset_executes cfg s now t o hs ht helapsed,
           call_opened_reset_halfOpen cfg s now t hs ht helapsed⟩
  · intro cfg s times hs hz hlen hth
    refine half_open_success_run cfg times s hs (by omega) ?_
    intro hnil
    rw [hnil] at hlen
    simp at hlen
    omega
  · intro cfg s now hs
    exact call_halfOpen_failure cfg s now hs

/-- C2, witness: the amended state machine exercised at concrete states. -/
theorem circuit_breaker_state_machine_witness :
    ((CircuitBreaker.call { failure_threshold := 2 } { state := .closed, current_consecutive_failures := 2 } 7 .success).1
       = .rejectedOpen) ∧
    ((CircuitBreaker.call {} { state := .opened, last_failure_time := some 10 } 70 .success).1
       = .ranSuccess) ∧
    ((callSuccesses {} { state := .halfOpen } [1, 2, 3]).state = .closed) ∧
    ((CircuitBreaker.call {} { state := .halfOpen } 5 .trackedFailure).2.state = .opened) :=
  ⟨(circuit_breaker_state_machine.1 _ _ 7 .success rfl (by decide)).1,
   circuit_breaker_state_machine.2.1 _ _ 70 10 .success rfl rfl (by decide) |>.1,
   circuit_breaker_state_machine.2.2.1 {} _ [1, 2, 3] rfl rfl (by decide) (by decide),
   (circuit_breaker_state_machine.2.2.2 {} _ 5 rfl).2⟩

/-! ## Helper lemmas: result cache -/

/-- Python's `sorted` gives equal outputs on lists that are permutations of
one another. -/
theorem insertionSort_eq_of_perm {l l' : List String} (h : l.Perm l') :
    List.insertionSort (· ≤ ·) l = List.insertionSort (· ≤ ·) l' :=
  List.eq_of_perm_of_sorted
    ((List.perm_insertionSort _ l).trans (h.trans (List.perm_insertionSort _ l').symm))
    (List.sorted_insertionSort _ l) (List.sorted_insertionSort _ l')

/-- Lookup right after a store, through any metadata that derives the same
cache key, finds exactly the stored result while the age ceiling has not
elapsed. -/
theorem get_after_set_of_key_eq (c : ResultCache) (doc : Document) (md md' : Metadata)
    (r : ProcessingResultD) (pname : String) (t t' : Nat)
    (hkey : ResultCache._generate_cache_key doc md' = ResultCache._generate_cache_key doc md)
    (hage : (t' : Int) - (t : Int) ≤ (c.max_age_hours : Int) * 3600) :
    (ResultCache.get (ResultCache.set c doc md r pname t) doc md' t').1 = some r := by
  have harith : ¬ (c.max_age_hours : Int) * 3600 < (t' : Int) - (t : Int) := by omega
  simp [ResultCache.get, ResultCache.set, hkey, ResultCache._is_expired, harith]

/-! ## Claim C5 -/

/-- C5. Key derivation is a pure function of (fingerprint, category,
machine-name list, basic-mode flag), invariant under reordering of the
machine-name list; and a `set` followed by a `get` with the same inputs — the
machine-name list in any order — returns exactly the stored result, provided
the age ceiling has not elapsed between the two. -/
theorem cache_set_get_roundtrip (c : ResultCache) (doc : Document) (md md' : Metadata)
    (r : ProcessingResultD) (pname : String) (t t' : Nat)
    (hdt : md'.document_type = md.document_type) (hb : md'.basic = md.basic)
    (hperm : (md'.machine_names.getD []).Perm (md.machine_names.getD []))
    (hage : (t' : Int) - (t : Int) ≤ (c.max_age_hours : Int) * 3600) :
    ResultCache._generate_cache_key doc md' = ResultCache._generate_cache_key doc md ∧
    (ResultCache.get (ResultCache.set c doc md r pname t) doc md' t').1 = some r := by
  have hkey : ResultCache._generate_cache_key doc md' = ResultCache._generate_cache_key doc md := by
    simp only [ResultCache._generate_cache_key, hdt, hb, insertionSort_eq_of_perm hperm]
  exact ⟨hkey, get_after_set_of_key_eq c doc md md' r pname t t' hkey hage⟩

/-- C5, witness: a concrete store-then-lookup with the machine names
reordered, one hour apart on an initially empty cache. -/
theorem cache_set_get_roundtrip_witness :
    ResultCache._generate_cache_key
        { s3_key := "k", filename := "f.pdf", file_size := 9, etag := "abc123" }
        { document_type := some "manual", machine_names := some ["X1", "A2"] } =
      ResultCache._generate_cache_key
        { s3_key := "k", filename := "f.pdf", file_size := 9, etag := "abc123" }
        { document_type := some "manual", machine_names := some ["A2", "X1"] } ∧
    (ResultCache.get
        (ResultCache.set { mem := fun _ => none }
          { s3_key := "k", filename := "f.pdf", file_size := 9, etag := "abc123" }
          { document_type := some "manual", machine_names := some ["A2", "X1"] }
          { processing_info := { success := true } } "DataLabsProcessor" 0)
        { s3_key := "k", filename := "f.pdf", file_size := 9, etag := "abc123" }
        { document_type := some "manual", machine_names := some ["X1", "A2"] } 3600).1 =
      some { processing_info := { success := true } } :=
  cache_set_get_roundtrip { mem := fun _ => none } _ _ _ _ "DataLabsProcessor" 0 3600
    rfl rfl (by decide) (by decide)

/-! ## Helper lemmas: orchestrator -/

/-- On a cache hit (valid metadata), `process_document` touches neither S3
nor the processor, sends the document webhook, and returns the cached result
as a success marked `from_cache`. -/
theorem process_document_cached_hit (env : PDEnv) (c : ResultCache) (d : Document)
    (m : Metadata) (r' : ProcessingResultD)
    (hv : validate_document_metadata m = [])
    (hh : (ResultCache.get c (updateDocumentMeta d m) m env.now).1 = some r') :
    (process_document env true c d m).2.2.processor_invocations = 0 ∧
    (process_document env true c d m).2.2.downloads = 0 ∧
    (process_document env true c d m).2.2.webhook_doc_calls = 1 ∧
    (process_document env true c d m).1.success = true ∧
    (process_document env true c d m).1.from_cache = some true ∧
    (process_document env true c d m).1.processing_result = some r' := by
  simp [process_document, hv, hh]

/-- On a cache miss with a successful download and a processor that returns
(valid metadata, webhook configured), `process_document` runs the full
pipeline: download, process, cache write, webhook, success return. -/
theorem process_document_miss_run (env1 : PDEnv) (c0 : ResultCache) (doc : Document)
    (md : Metadata) (r : ProcessingResultD) (content : String)
    (hval : validate_document_metadata md = [])
    (hmiss : c0.mem (ResultCache._generate_cache_key (updateDocumentMeta doc md) md) = none)
    (hdl : env1.download = some content) (hc : content ≠ "")
    (hproc : env1.processorRun = .ok r) :
    process_document env1 true c0 doc md =
      ({ success := true, document_id := some (updateDocumentMeta doc md).file_id,
         processing_result := some r,
         processor_used := some ((get_processor_by_method (md.processing_method.getD "markdown")).getD "DataLabsProcessor"),
         webhook_result := some (runWebhook env1.webhookDoc), from_cache := some false },
       ResultCache.set c0 (updateDocumentMeta doc md) md r
         ((get_processor_by_method (md.processing_method.getD "markdown")).getD "DataLabsProcessor") env1.now,
       { downloads := 1, processor_invocations := 1, webhook_doc_calls := 1 }) := by
  simp [process_document, hval, ResultCache.get, hmiss, hdl, hc, hproc]

/-! ## Claim C1 -/

/-- C1. With a cached result, `process_document` skips download and processor
invocation entirely but still sends the downstream webhook (first conjunct,
for every cached state); hence two successive `process_document` calls with
the same document, metadata and an initially-uncached state invoke the
processor exactly once (once on the first call, zero times on the second) and
send the document webhook on both calls, the second returning the cached
result (remaining conjuncts). The second call's environment is arbitrary:
whatever its collaborators would do, they are not consulted. -/
theorem process_document_cache_skip_and_notify (env1 env2 : PDEnv) (c0 : ResultCache)
    (doc : Document) (md : Metadata) (r : ProcessingResultD) (content : String)
    (hval : validate_document_metadata md = [])
    (hmiss : c0.mem (ResultCache._generate_cache_key (updateDocumentMeta doc md) md) = none)
    (hdl : env1.download = some content) (hc : content ≠ "")
    (hproc : env1.processorRun = .ok r)
    (hage : (env2.now : Int) - (env1.now : Int) ≤ (c0.max_age_hours : Int) * 3600) :
    (∀ (env : PDEnv) (c : ResultCache) (d : Document) (m : Metadata) (r' : ProcessingResultD),
       validate_document_metadata m = [] →
       (ResultCache.get c (updateDocumentMeta d m) m env.now).1 = some r' →
       (process_document env true c d m).2.2.processor_invocations = 0 ∧
       (process_document env true c d m).2.2.downloads = 0 ∧
       (process_document env true c d m).2.2.webhook_doc_calls = 1 ∧
       (process_document env true c d m).1.success = true) ∧
    (process_document env1 true c0 doc md).2.2.processor_invocations = 1 ∧
    (process_document env1 true c0 doc md).2.2.webhook_doc_calls = 1 ∧
    (process_document env2 true (process_document env1 true c0 doc md).2.1 doc md).2.2.processor_invocations = 0 ∧
    (process_document env2 true (process_document env1 true c0 doc md).2.1 doc md).2.2.downloads = 0 ∧
    (process_document env2 true (process_document env1 true c0 doc md).2.1 doc md).2.2.webhook_doc_calls = 1 ∧
    (process_document env2 true (process_document env1 true c0 doc md).2.1 doc md).1.from_cache = some true ∧
    (process_document env2 true (process_document env1 true c0 doc md).2.1 doc md).1.processing_result = some r := by
  refine ⟨fun env c d m r' hv hh =>
    ⟨(process_document_cached_hit env c d m r' hv hh).1,
     (process_document_cached_hit env c d m r' hv hh).2.1,
     (process_document_cached_hit env c d m r' hv hh).2.2.1,
     (process_document_cached_hit env c d m r' hv hh).2.2.2.1⟩, ?_⟩
  have h1 := process_document_miss_run env1 c0 doc md r content hval hmiss hdl hc hproc
  rw [h1]
  have hc2 : (ResultCache.get
      (ResultCache.set c0 (updateDocumentMeta doc md) md r
        ((get_processor_by_method (md.processing_method.getD "markdown")).getD "DataLabsProcessor") env1.now)
      (updateDocumentMeta doc md) md env2.now).1 = some r :=
    get_after_set_of_key_eq c0 (updateDocumentMeta doc md) md md r _ env1.now env2.now rfl hage
  have h2 := process_document_cached_hit env2 _ doc md r hval hc2
  exact ⟨rfl, rfl, h2.1, h2.2.1, h2.2.2.1, h2.2.2.2.2.1, h2.2.2.2.2.2⟩

/-- C1, witness: the fingerprint "abc123" / category "manual" / machines
["X1"] scenario, processed at time 0 and again unchanged one hour later. -/
theorem process_document_cache_skip_and_notify_witness :
    (process_document
        { now := 0, download := some "PDFBYTES", processorRun := .ok { processing_info := { success := true } },
          webhookDoc := .ok true, webhookErr := .ok true } true
        { mem := fun _ => none }
        { s3_key := "docs/m.pdf", filename := "m.pdf", file_size := 9, etag := "abc123" }
        { document_type := some "manual", machine_names := some ["X1"] }).2.2.processor_invocations = 1 ∧
    (process_document
        { now := 0, download := some "PDFBYTES", processorRun := .ok { processing_info := { success := true } },
          webhookDoc := .ok true, webhookErr := .ok true } true
        { mem := fun _ => none }
        { s3_key := "docs/m.pdf", filename := "m.pdf", file_size := 9, etag := "abc123" }
        { document_type := some "manual", machine_names := some ["X1"] }).2.2.webhook_doc_calls = 1 ∧
    (process_document
        { now := 3600, download := none, processorRun := .error "unused",
          webhookDoc := .ok true, webhookErr := .ok true } true
        (process_document
          { now := 0, download := some "PDFBYTES", processorRun := .ok { processing_info := { success := true } },
            webhookDoc := .ok true, webhookErr := .ok true } true
          { mem := fun _ => none }
          { s3_key := "docs/m.pdf", filename := "m.pdf", file_size := 9, etag := "abc123" }
          { document_type := some "manual", machine_names := some ["X1"] }).2.1
        { s3_key := "docs/m.pdf", filename := "m.pdf", file_size := 9, etag := "abc123" }
        { document_type := some "manual", machine_names := some ["X1"] }).2.2.processor_invocations = 0 ∧
    (process_document
        { now := 3600, download := none, processorRun := .error "unused",
          webhookDoc := .ok true, webhookErr := .ok true } true
        (process_document
          { now := 0, download := some "PDFBYTES", processorRun := .ok { processing_info := { success := true } },
            webhookDoc := .ok true, webhookErr := .ok true } true
          { mem := fun _ => none }
          { s3_key := "docs/m.pdf", filename := "m.pdf", file_size := 9, etag := "abc123" }
          { document_type := some "manual", machine_names := some ["X1"] }).2.1
        { s3_key := "docs/m.pdf", filename := "m.pdf", file_size := 9, etag := "abc123" }
        { document_type := some "manual", machine_names := some ["X1"] }).2.2.downloads = 0 ∧
    (process_document
        { now := 3600, download := none, processorRun := .error "unused",
          webhookDoc := .ok true, webhookErr := .ok true } true
        (process_document
          { now := 0, download := some "PDFBYTES", processorRun := .ok { processing_info := { success := true } },
            webhookDoc := .ok true, webhookErr := .ok true } true
          { mem := fun _ => none }
          { s3_key := "docs/m.pdf", filename := "m.pdf", file_size := 9, etag := "abc123" }
          { document_type := some "manual", machine_names := some ["X1"] }).2.1
        { s3_key := "docs/m.pdf", filename := "m.pdf", file_size := 9, etag := "abc123" }
        { document_type := some "manual", machine_names := some ["X1"] }).2.2.webhook_doc_calls = 1 := by
  have h := process_document_cache_skip_and_notify
    { now := 0, download := some "PDFBYTES", processorRun := .ok { processing_info := { success := true } },
      webhookDoc := .ok true, webhookErr := .ok true }
    { now := 3600, download := none, processorRun := .error "unused",
      webhookDoc := .ok true, webhookErr := .ok true }
    { mem := fun _ => none }
    { s3_key := "docs/m.pdf", filename := "m.pdf", file_size := 9, etag := "abc123" }
    { document_type := some "manual", machine_names := some ["X1"] }
    { processing_info := { success := true } } "PDFBYTES"
    (by decide) rfl rfl (by decide) rfl (by decide)
  exact ⟨h.2.1, h.2.2.1, h.2.2.2.1, h.2.2.2.2.1, h.2.2.2.2.2.1⟩

/-! ## Claim C6 -/

/-- C6. On a cache miss, after the processor returns a result `r`, the
orchestrator writes `r` to the result cache — `r` is universally quantified,
so this holds regardless of whether `r.processing_info.success` is true or
false (failed processing attempts are cached too) — and then performs the
downstream notification (the document webhook is called once). -/
theorem process_document_caches_failures_too (env : PDEnv) (c0 : ResultCache)
    (doc : Document) (md : Metadata) (r : ProcessingResultD) (content : String)
    (hval : validate_document_metadata md = [])
    (hmiss : c0.mem (ResultCache._generate_cache_key (updateDocumentMeta doc md) md) = none)
    (hdl : env.download = some content) (hc : content ≠ "")
    (hproc : env.processorRun = .ok r) :
    (process_document env true c0 doc md).2.1.mem
        (ResultCache._generate_cache_key (updateDocumentMeta doc md) md) =
      some { document_etag := doc.etag
             document_type := md.document_type.getD ""
             machine_names := md.machine_names.getD []
             processing_result := r
             processor_used := (get_processor_by_method (md.processing_method.getD "markdown")).getD "DataLabsProcessor"
             created_at := env.now
             file_size := doc.file_size
             filename := doc.filename } ∧
    (process_document env true c0 doc md).2.2.processor_invocations = 1 ∧
    (process_document env true c0 doc md).2.2.webhook_doc_calls = 1 := by
  rw [process_document_miss_run env c0 doc md r content hval hmiss hdl hc hproc]
  refine ⟨?_, rfl, rfl⟩
  simp [ResultCache.set, updateDocumentMeta]

/-- C6, witness: a processing result whose `processing_info.success` is false
is cached all the same, and the webhook is still sent. -/
theorem process_document_caches_failures_too_witness :
    (process_document
        { now := 5, download := some "PDFBYTES",
          processorRun := .ok { processing_info := { success := false, error := some "backend rejected" } },
          webhookDoc := .ok true, webhookErr := .ok true } true
        { mem := fun _ => none }
        { s3_key := "docs/m.pdf", filename := "m.pdf", file_size := 9, etag := "abc123" }
        { document_type := some "manual", machine_names := some ["X1"] }).2.1.mem
      (ResultCache._generate_cache_key
        (updateDocumentMeta
          { s3_key := "docs/m.pdf", filename := "m.pdf", file_size := 9, etag := "abc123" }
          { document_type := some "manual", machine_names := some ["X1"] })
        { document_type := some "manual", machine_names := some ["X1"] }) =
      some { document_etag := "abc123"
             document_type := "manual"
             machine_names := ["X1"]
             processing_result := { processing_info := { success := false, error := some "backend rejected" } }
             processor_used := "DataLabsProcessor"
             created_at := 5
             file_size := 9
             filename := "m.pdf" } ∧
    (process_document
        { now := 5, download := some "PDFBYTES",
          processorRun := .ok { processing_info := { success := false, error := some "backend rejected" } },
          webhookDoc := .ok true, webhookErr := .ok true } true
        { mem := fun _ => none }
        { s3_key := "docs/m.pdf", filename := "m.pdf", file_size := 9, etag := "abc123" }
        { document_type := some "manual", machine_names := some ["X1"] }).2.2.webhook_doc_calls = 1 := by
  have h := process_document_caches_failures_too
    { now := 5, download := some "PDFBYTES",
      processorRun := .ok { processing_info := { success := false, error := some "backend rejected" } },
      webhookDoc := .ok true, webhookErr := .ok true }
    { mem := fun _ => none }
    { s3_key := "docs/m.pdf", filename := "m.pdf", file_size := 9, etag := "abc123" }
    { document_type := some "manual", machine_names := some ["X1"] }
    { processing_info := { success := false, error := some "backend rejected" } } "PDFBYTES"
    (by decide) rfl rfl (by decide) rfl
  exact ⟨h.1, h.2.2⟩

/-! ## Claim C10 -/

/-- C10. When the processor returns a result without raising whose nested
`processing_info.success` is false (a backend-reported failure),
`process_document` still returns a top-level dict with `success = True`
carrying that result nested inside, and the batch scheduler consequently
classifies the document into the successful list (shown on a one-item
sequential group with no cancellation: the successful list has one entry and
the failed list is empty). -/
theorem backend_failure_classified_successful (env : PDEnv) (c0 : ResultCache)
    (doc : Document) (md : Metadata) (r : ProcessingResultD) (content : String)
    (hval : validate_document_metadata md = [])
    (hmiss : c0.mem (ResultCache._generate_cache_key (updateDocumentMeta doc md) md) = none)
    (hdl : env.download = some content) (hc : content ≠ "")
    (hproc : env.processorRun = .ok r)
    (hfail : r.processing_info.success = false) :
    (process_document env true c0 doc md).1.success = true ∧
    (process_document env true c0 doc md).1.processing_result = some r ∧
    (processSingleDocument (fun _ => .ok (process_document env true c0 doc md).1)
        ⟨doc, md⟩).success = true ∧
    (groupSeq (processSingleDocument (fun _ => .ok (process_document env true c0 doc md).1))
        (fun _ => false) 0 [⟨doc, md⟩]).successful.length = 1 ∧
    (groupSeq (processSingleDocument (fun _ => .ok (process_document env true c0 doc md).1))
        (fun _ => false) 0 [⟨doc, md⟩]).failed = [] := by
  rw [process_document_miss_run env c0 doc md r content hval hmiss hdl hc hproc]
  refine ⟨rfl, rfl, rfl, ?_, ?_⟩ <;> simp [groupSeq, processSingleDocument]

/-- C10, witness: a backend-failed result at concrete inputs lands in the
successful list. -/
theorem backend_failure_classified_successful_witness :
    (process_document
        { now := 5, download := some "PDFBYTES",
          processorRun := .ok { processing_info := { success := false, error := some "parse error" } },
          webhookDoc := .ok true, webhookErr := .ok true } true
        { mem := fun _ => none }
        { s3_key := "docs/m.pdf", filename := "m.pdf", file_size := 9, etag := "abc123" }
        { document_type := some "manual", machine_names := some ["X1"] }).1.success = true ∧
    (groupSeq (processSingleDocument (fun _ => .ok (process_document
        { now := 5, download := some "PDFBYTES",
          processorRun := .ok { processing_info := { success := false, error := some "parse error" } },
          webhookDoc := .ok true, webhookErr := .ok true } true
        { mem := fun _ => none }
        { s3_key := "docs/m.pdf", filename := "m.pdf", file_size := 9, etag := "abc123" }
        { document_type := some "manual", machine_names := some ["X1"] }).1))
      (fun _ => false) 0
      [⟨{ s3_key := "docs/m.pdf", filename := "m.pdf", file_size := 9, etag := "abc123" },
        { document_type := some "manual", machine_names := some ["X1"] }⟩]).failed = [] := by
  have h := backend_failure_classified_successful
    { now := 5, download := some "PDFBYTES",
      processorRun := .ok { processing_info := { success := false, error := some "parse error" } },
      webhookDoc := .ok true, webhookErr := .ok true }
    { mem := fun _ => none }
    { s3_key := "docs/m.pdf", filename := "m.pdf", file_size := 9, etag := "abc123" }
    { document_type := some "manual", machine_names := some ["X1"] }
    { processing_info := { success := false, error := some "parse error" } } "PDFBYTES"
    (by decide) rfl rfl (by decide) rfl rfl
  exact ⟨h.1, h.2.2.2.2⟩

/-! ## Helper lemmas: chunker -/

/-- The chunk accumulator only ever grows: running the loop with accumulator
`acc` prepends `acc` to the run with an empty accumulator. -/
theorem chunkGo_append (m : Nat) :
    ∀ (sizes : List Nat) (p cc cs k sp : Nat) (acc : List ChunkRange),
      chunkGo m sizes p cc cs k sp acc = acc ++ chunkGo m sizes p cc cs k sp [] := by
  intro sizes
  induction sizes with
  | nil =>
      intro p cc cs k sp acc
      by_cases h : cc ≠ 0 <;> simp [chunkGo, h]
  | cons s rest ih =>
      intro p cc cs k sp acc
      by_cases h : m < cs + s ∧ cc ≠ 0
      · simp only [chunkGo, if_pos h]
        rw [ih]
        conv_rhs => rw [ih]
        simp
      · simp only [chunkGo, if_neg h]
        rw [ih]

/-- Loop invariant for the page ranges: from a state whose current chunk
holds the `cc ≥ 1` pages `[sp, sp + cc)` (0-based), the produced chunks cover
exactly the 1-based range from `sp + 1` to `sp + cc + sizes.length`. -/
theorem chunkGo_covers (m : Nat) :
    ∀ (sizes : List Nat) (cc cs k sp : Nat), 1 ≤ cc →
      covers (sp + 1) (chunkGo m sizes (sp + cc) cc cs k sp []) (sp + cc + sizes.length) := by
  intro sizes
  induction sizes with
  | nil =>
      intro cc cs k sp hcc
      have hcc' : cc ≠ 0 := by omega
      simp only [chunkGo, if_pos hcc', List.nil_append, List.length_nil, Nat.add_zero]
      have he : sp + cc - 1 + 1 = sp + cc := by omega
      refine ⟨rfl, ?_, ?_⟩
      · simp [he]; omega
      · simp [covers, he]
  | cons s rest ih =>
      intro cc cs k sp hcc
      by_cases h : m < cs + s ∧ cc ≠ 0
      · simp only [chunkGo, if_pos h]
        rw [chunkGo_append]
        have he : sp + cc - 1 + 1 = sp + cc := by omega
        have hnext := ih 1 s (k + 1) (sp + cc) (by omega)
        refine ⟨rfl, by simp [he]; omega, ?_⟩
        simp only [he]
        have hlen : sp + cc + 1 + rest.length = sp + cc + (s :: rest).length := by
          simp; omega
        rw [hlen] at hnext
        simpa using hnext
      · simp only [chunkGo, if_neg h]
        have hnext := ih (cc + 1) (cs + s) k sp (by omega)
        have harg : sp + cc + 1 = sp + (cc + 1) := by omega
        rw [harg]
        have hlen : sp + (cc + 1) + rest.length = sp + cc + (s :: rest).length := by
          simp; omega
        rw [hlen] at hnext
        exact hnext

/-- When the current chunk is the single 0-based page `sp` and its size
already exceeds the ceiling, that page ends up as a chunk of its own (any
following page seals it, and so does the end of the document). -/
theorem chunkGo_oversized_current (m : Nat) :
    ∀ (sizes : List Nat) (cs k sp : Nat) (acc : List ChunkRange), m < cs →
      ∃ c ∈ chunkGo m sizes (sp + 1) 1 cs k sp acc,
        c.start_page = sp + 1 ∧ c.end_page = sp + 1 := by
  intro sizes
  induction sizes with
  | nil =>
      intro cs k sp acc hcs
      simp only [chunkGo]
      exact ⟨⟨k, sp + 1, sp + 1 - 1 + 1⟩, by simp, rfl, by simp⟩
  | cons s rest ih =>
      intro cs k sp acc hcs
      have hcond : m < cs + s ∧ (1 : Nat) ≠ 0 := ⟨by omega, by omega⟩
      simp only [chunkGo, if_pos hcond]
      rw [chunkGo_append]
      exact ⟨⟨k, sp + 1, sp + 1 - 1 + 1⟩, by simp, rfl, by simp⟩

/-- Any page whose own serialized size exceeds the ceiling becomes a
singleton chunk of its own, wherever it sits in the remaining pages
(invariant form: the next 0-based page index is `sp + cc`). -/
theorem chunkGo_oversized (m : Nat) :
    ∀ (sizes : List Nat) (j cc cs k sp : Nat) (acc : List ChunkRange)
      (h : j < sizes.length), m < sizes.get ⟨j, h⟩ →
      ∃ c ∈ chunkGo m sizes (sp + cc) cc cs k sp acc,
        c.start_page = sp + cc + j + 1 ∧ c.end_page = sp + cc + j + 1 := by
  intro sizes
  induction sizes with
  | nil =>
      intro j cc cs k sp acc h
      simp at h
  | cons s rest ih =>
      intro j cc cs k sp acc h hbig
      cases j with
      | zero =>
          have hs : m < s := by simpa using hbig
          by_cases hcc : cc = 0
          · subst hcc
            have hcond : ¬ (m < cs + s ∧ (0 : Nat) ≠ 0) := by simp
            simp only [chunkGo, if_neg hcond]
            obtain ⟨c, hm, h1, h2⟩ :=
              chunkGo_oversized_current m rest (cs + s) k sp acc (by omega)
            exact ⟨c, by simpa using hm, by omega, by omega⟩
          · have hcond : m < cs + s ∧ cc ≠ 0 := ⟨by omega, hcc⟩
            simp only [chunkGo, if_pos hcond]
            obtain ⟨c, hm, h1, h2⟩ :=
              chunkGo_oversized_current m rest s (k + 1) (sp + cc)
                (acc ++ [⟨k, sp + 1, sp + cc - 1 + 1⟩]) hs
            exact ⟨c, by simpa using hm, by omega, by omega⟩
      | succ j =>
          have hbig' : m < rest.get ⟨j, by simpa using h⟩ := by simpa using hbig
          by_cases hcond : m < cs + s ∧ cc ≠ 0
          · simp only [chunkGo, if_pos hcond]
            obtain ⟨c, hm, h1, h2⟩ :=
              ih j 1 s (k + 1) (sp + cc) (acc ++ [⟨k, sp + 1, sp + cc - 1 + 1⟩])
                (by simpa using h) hbig'
            exact ⟨c, by simpa using hm, by omega, by omega⟩
          · simp only [chunkGo, if_neg hcond]
            obtain ⟨c, hm, h1, h2⟩ :=
              ih j (cc + 1) (cs + s) k sp acc (by simpa using h) hbig'
            exact ⟨c, by simpa using hm, by omega, by omega⟩

/-! ## Claim C4 -/

/-- C4. For every PDF with at least one page, the recorded 1-based inclusive
page ranges of the produced chunks partition the document's full page range
(`covers 1 _ total`: the first chunk starts at page 1, each subsequent chunk
starts at the previous chunk's end page plus one, the last chunk ends at the
total page count, with no gaps or overlaps — in particular no page is dropped
or duplicated); and every single page whose own serialized size exceeds the
byte ceiling sits alone in a chunk of its own (never split, and by the
partition never dropped). -/
theorem chunker_page_range_partition (m : Nat) (sizes : List Nat) (hne : sizes ≠ []) :
    covers 1 (chunk_pdf m sizes) sizes.length ∧
    ∀ (j : Nat) (h : j < sizes.length), m < sizes.get ⟨j, h⟩ →
      ∃ c ∈ chunk_pdf m sizes, c.start_page = j + 1 ∧ c.end_page = j + 1 := by
  constructor
  · obtain ⟨s, rest, rfl⟩ : ∃ s rest, sizes = s :: rest := by
      cases sizes with
      | nil => exact absurd rfl hne
      | cons s rest => exact ⟨s, rest, rfl⟩
    have hstep : chunk_pdf m (s :: rest) = chunkGo m rest (0 + 1) 1 (0 + s) 1 0 [] := by
      simp [chunk_pdf, chunkGo]
    rw [hstep]
    have h := chunkGo_covers m rest 1 (0 + s) 1 0 (by omega)
    have hlen : 0 + 1 + rest.length = (s :: rest).length := by simp; omega
    rw [hlen] at h
    simpa using h
  · intro j h hbig
    obtain ⟨c, hm, h1, h2⟩ := chunkGo_oversized m sizes j 0 0 1 0 [] h hbig
    exact ⟨c, by simpa [chunk_pdf] using hm, by omega, by omega⟩

/-- C4, witness: three pages of 5, 20 and 5 bytes against a 10-byte ceiling —
the ranges partition pages 1..3 and the oversized middle page is a singleton
chunk. -/
theorem chunker_page_range_partition_witness :
    (([5, 20, 5] : List Nat) ≠ []) ∧
    covers 1 (chunk_pdf 10 [5, 20, 5]) 3 ∧
    ∃ c ∈ chunk_pdf 10 [5, 20, 5], c.start_page = 2 ∧ c.end_page = 2 :=
  ⟨by decide,
   (chunker_page_range_partition 10 [5, 20, 5] (by decide)).1,
   (chunker_page_range_partition 10 [5, 20, 5] (by decide)).2 1 (by decide) (by decide)⟩

/-! ## Helper lemmas: combiner -/

/-- Renumbering rewrites identifiers but never the page text. -/
theorem renumberPages_map_text (maxE : Option Nat) (cid : String) (ci : Option ChunkInfoD)
    (sp : Nat) : ∀ (j : Nat) (l : List PageD),
    (renumberPages maxE cid ci sp j l).map (fun p => p.text) = l.map (fun p => p.text) := by
  intro j l
  induction l generalizing j with
  | nil => simp [renumberPages]
  | cons p ps ih => simp [renumberPages, renumberPage, ih]

/-- The loop counts successful and failed chunks exactly. -/
theorem combineGo_counts (maxE : Option Nat) :
    ∀ (crs : List ChunkResultD) (i cur : Nat),
      (combineGo maxE i cur crs).2.1 = crs.countP (fun c => c.processing_info.success) ∧
      (combineGo maxE i cur crs).2.2.1 = crs.countP (fun c => !c.processing_info.success) := by
  intro crs
  induction crs with
  | nil => intro i cur; simp [combineGo]
  | cons cr rest ih =>
      intro i cur
      by_cases h : cr.processing_info.success = true
      · simp [combineGo, h, List.countP_cons, ih]
      · simp [combineGo, h, List.countP_cons, ih, Bool.not_eq_true]

/-- The combined pages are, textwise, the concatenation of the successful
chunks' pages in order: failed chunks contribute nothing and successful ones
lose nothing. -/
theorem combineGo_pages_text (maxE : Option Nat) :
    ∀ (crs : List ChunkResultD) (i cur : Nat),
      (combineGo maxE i cur crs).1.map (fun p => p.text) =
        ((crs.filter (fun c => c.processing_info.success)).map
          (fun c => c.pages.map (fun p => p.text))).flatten := by
  intro crs
  induction crs with
  | nil => intro i cur; simp [combineGo]
  | cons cr rest ih =>
      intro i cur
      by_cases h : cr.processing_info.success = true
      · simp [combineGo, h, renumberPages_map_text, ih]
      · simp [combineGo, h, ih]

/-- Every failing chunk contributes its error-detail line to the collected
details (enumeration index threaded from `i`). -/
theorem errorDetailsGo_mem :
    ∀ (crs : List ChunkResultD) (i j : Nat) (h : j < crs.length),
      (crs.get ⟨j, h⟩).processing_info.success = false →
      chunkErrorDetail (i + j) (crs.get ⟨j, h⟩) ∈ errorDetailsGo i crs := by
  intro crs
  induction crs with
  | nil => intro i j h; simp at h
  | cons cr rest ih =>
      intro i j h hfail
      cases j with
      | zero =>
          simp only [List.get] at hfail ⊢
          simp [errorDetailsGo, hfail]
      | succ j =>
          simp only [List.get] at hfail ⊢
          have := ih (i + 1) j (by simpa using h) hfail
          by_cases hs : cr.processing_info.success = true
          · simpa [errorDetailsGo, hs, Nat.add_assoc, Nat.add_comm 1 j] using this
          · simp only [errorDetailsGo, hs, Bool.false_eq_true, if_false]
            exact List.mem_cons_of_mem _ (by simpa [Nat.add_assoc, Nat.add_comm 1 j] using this)

/-- A member of a joined list is a substring of the join (split as prefix ++
member ++ suffix). -/
theorem pyJoin_mem_decomp (sep : String) :
    ∀ (l : List String) (s : String), s ∈ l →
      ∃ p q, pyJoin sep l = p ++ (s ++ q) := by
  intro l
  induction l with
  | nil => intro s hs; simp at hs
  | cons x rest ih =>
      intro s hs
      cases rest with
      | nil =>
          simp at hs
          subst hs
          exact ⟨"", "", by simp [pyJoin]⟩
      | cons y t =>
          rcases List.mem_cons.mp hs with h | h
          · subst h
            exact ⟨"", sep ++ pyJoin sep (y :: t), by simp [pyJoin, String.append_assoc]⟩
          · obtain ⟨p, q, hpq⟩ := ih s h
            refine ⟨x ++ sep ++ p, q, ?_⟩
            simp [pyJoin, hpq, String.append_assoc]

/-- Warnings never touch the success flag. -/
theorem combineAddWarnings_success (m : Option Nat) (pages : List PageD) (info : CombinedInfo) :
    (combineAddWarnings m pages info).success = info.success := by
  cases m with
  | none => rfl
  | some m =>
      by_cases h : m ≠ 0 <;> simp [combineAddWarnings, h]

/-- Warnings never touch the error field. -/
theorem combineAddWarnings_error (m : Option Nat) (pages : List PageD) (info : CombinedInfo) :
    (combineAddWarnings m pages info).error = info.error := by
  cases m with
  | none => rfl
  | some m =>
      by_cases h : m ≠ 0 <;> simp [combineAddWarnings, h]

/-- The error summary never touches the success flag. -/
theorem combineAddError_success (b : Bool) (f : Nat) (crs : List ChunkResultD)
    (info : CombinedInfo) : (combineAddError b f crs info).success = info.success := by
  cases b <;> simp [combineAddError]

/-- On failure the error summary is attached verbatim. -/
theorem combineAddError_error_of_fail (f : Nat) (crs : List ChunkResultD)
    (info : CombinedInfo) :
    (combineAddError false f crs info).error =
      some ("Processing failed: " ++ toString f ++ " of "
        ++ toString crs.length ++ " chunks failed. Details: "
        ++ pyJoin "; " (errorDetails crs)) := by
  simp [combineAddError]

/-- Success flag of the combined result = "at least one success and no
failure", via the loop counters. -/
theorem combine_success_eq (first : ChunkResultD) (rest : List ChunkResultD)
    (fn : String) (maxE : Option Nat) :
    (combine_chunk_results (first :: rest) fn maxE).processing_info.success =
      decide (0 < (combineGo maxE 0 1 (first :: rest)).2.1 ∧
        (combineGo maxE 0 1 (first :: rest)).2.2.1 = 0) := by
  simp [combine_chunk_results, combineAddError_success, combineAddWarnings_success]

/-- Pages of the combined result are the loop's combined pages. -/
theorem combine_pages_eq (first : ChunkResultD) (rest : List ChunkResultD)
    (fn : String) (maxE : Option Nat) :
    (combine_chunk_results (first :: rest) fn maxE).pages =
      (combineGo maxE 0 1 (first :: rest)).1 := by
  simp [combine_chunk_results]

/-- On a failed combination the error carries the concatenated per-chunk
summary. -/
theorem combine_error_eq (first : ChunkResultD) (rest : List ChunkResultD)
    (fn : String) (maxE : Option Nat)
    (hfail : ¬ (0 < (combineGo maxE 0 1 (first :: rest)).2.1 ∧
        (combineGo maxE 0 1 (first :: rest)).2.2.1 = 0)) :
    (combine_chunk_results (first :: rest) fn maxE).processing_info.error =
      some ("Processing failed: " ++ toString (combineGo maxE 0 1 (first :: rest)).2.2.1 ++ " of "
        ++ toString (first :: rest).length ++ " chunks failed. Details: "
        ++ pyJoin "; " (errorDetails (first :: rest))) := by
  have hb : (decide (0 < (combineGo maxE 0 1 (first :: rest)).2.1 ∧
      (combineGo maxE 0 1 (first :: rest)).2.2.1 = 0)) = false := by
    simpa using hfail
  simp only [combine_chunk_results]
  rw [hb]
  rw [combineAddError_error_of_fail]

/-- A failing chunk's error-detail line exhibits its page range as an infix. -/
theorem chunkErrorDetail_decomp (j : Nat) (cr : ChunkResultD) (pr : String)
    (h : cr.processing_info.chunk_details.bind (fun cd => cd.page_range) = some pr) :
    ∃ pre post, chunkErrorDetail j cr = pre ++ (pr ++ post) := by
  refine ⟨"Chunk " ++ toString (j + 1) ++ " (pages ",
    "): " ++ cr.processing_info.error_type.getD "Unknown" ++ " - "
      ++ cr.processing_info.error.getD "Unknown error", ?_⟩
  simp [chunkErrorDetail, h, String.append_assoc]

/-! ## Claim C3 -/

/-- C3. The combiner's overall success flag is true iff at least one chunk
succeeded and no chunk failed; the combined pages are exactly the
concatenation of the successful chunks' pages (so under failure every page
from every successful chunk is preserved, never discarded); and when some
chunk failed, the combined result has success = false and carries an error
summary in which each failing chunk's recorded page range appears. -/
theorem combiner_success_iff_and_partial_preservation (crs : List ChunkResultD)
    (fn : String) (maxE : Option Nat) :
    ((combine_chunk_results crs fn maxE).processing_info.success = true ↔
      ((∃ c ∈ crs, c.processing_info.success = true) ∧
        ∀ c ∈ crs, c.processing_info.success = true)) ∧
    ((combine_chunk_results crs fn maxE).pages.map (fun p => p.text) =
      ((crs.filter (fun c => c.processing_info.success)).map
        (fun c => c.pages.map (fun p => p.text))).flatten) ∧
    ((∃ c ∈ crs, c.processing_info.success = false) →
      (combine_chunk_results crs fn maxE).processing_info.success = false ∧
      ∀ (j : Nat) (h : j < crs.length) (pr : String),
        (crs.get ⟨j, h⟩).processing_info.success = false →
        (crs.get ⟨j, h⟩).processing_info.chunk_details.bind (fun cd => cd.page_range) = some pr →
        ∃ p q, (combine_chunk_results crs fn maxE).processing_info.error =
          some (p ++ (pr ++ q))) := by
  cases crs with
  | nil =>
      refine ⟨by simp [combine_chunk_results], by simp [combine_chunk_results], by simp⟩
  | cons first rest =>
      have hcounts := combineGo_counts maxE (first :: rest) 0 1
      refine ⟨?_, ?_, ?_⟩
      · rw [combine_success_eq, hcounts.1, hcounts.2]
        simp only [decide_eq_true_eq]
        constructor
        · rintro ⟨hpos, hzero⟩
          refine ⟨?_, ?_⟩
          · obtain ⟨c, hc, hp⟩ := List.countP_pos_iff.mp hpos
            exact ⟨c, hc, hp⟩
          · intro c hc
            have := List.countP_eq_zero.mp hzero c hc
            simpa using this
        · rintro ⟨⟨c, hc, hp⟩, hall⟩
          refine ⟨List.countP_pos_iff.mpr ⟨c, hc, hp⟩, List.countP_eq_zero.mpr ?_⟩
          intro a ha
          simpa using hall a ha
      · rw [combine_pages_eq, combineGo_pages_text]
      · rintro ⟨c, hc, hfail⟩
        have hnz : (first :: rest).countP (fun c => !c.processing_info.success) ≠ 0 := by
          intro h0
          have := List.countP_eq_zero.mp h0 c hc
          simp [hfail] at this
        have hnot : ¬ (0 < (combineGo maxE 0 1 (first :: rest)).2.1 ∧
            (combineGo maxE 0 1 (first :: rest)).2.2.1 = 0) := by
          rw [hcounts.2]
          intro hcon
          exact hnz hcon.2
        constructor
        · rw [combine_success_eq]
          simpa using hnot
        · intro j h pr hjfail hpr
          have hmem := errorDetailsGo_mem (first :: rest) 0 j h hjfail
          have hmem' : chunkErrorDetail j ((first :: rest).get ⟨j, h⟩) ∈
              errorDetails (first :: rest) := by
            simpa [errorDetails] using hmem
          obtain ⟨p1, q1, hjoin⟩ := pyJoin_mem_decomp "; " _ _ hmem'
          obtain ⟨pre, post, hdet⟩ := chunkErrorDetail_decomp j _ pr hpr
          rw [hdet] at hjoin
          refine ⟨("Processing failed: " ++ toString (combineGo maxE 0 1 (first :: rest)).2.2.1
            ++ " of " ++ toString ((first :: rest)).length ++ " chunks failed. Details: "
            ++ p1) ++ pre, post ++ q1, ?_⟩
          rw [combine_error_eq first rest fn maxE hnot, hjoin]
          simp [String.append_assoc]

/-- C3, witness: one failing chunk among three — the combined result reports
success = false, keeps the pages of chunks 1 and 3, and the summary names
the failing chunk's page range "3-4". -/
theorem combiner_success_iff_and_partial_preservation_witness :
    (∃ c ∈ [exampleChunk1, exampleChunk2, exampleChunk3],
      c.processing_info.success = false) ∧
    (combine_chunk_results [exampleChunk1, exampleChunk2, exampleChunk3]
        "f.pdf" (some 5)).processing_info.success = false ∧
    (combine_chunk_results [exampleChunk1, exampleChunk2, exampleChunk3]
        "f.pdf" (some 5)).pages.map (fun p => p.text) = ["a", "b", "c"] ∧
    ∃ p q, (combine_chunk_results [exampleChunk1, exampleChunk2, exampleChunk3]
        "f.pdf" (some 5)).processing_info.error = some (p ++ ("3-4" ++ q)) := by
  have hex : ∃ c ∈ [exampleChunk1, exampleChunk2, exampleChunk3],
      c.processing_info.success = false :=
    ⟨exampleChunk2, by decide, rfl⟩
  have h := combiner_success_iff_and_partial_preservation
    [exampleChunk1, exampleChunk2, exampleChunk3] "f.pdf" (some 5)
  refine ⟨hex, (h.2.2 hex).1, ?_, (h.2.2 hex).2 1 (by decide) "3-4" rfl rfl⟩
  rw [h.2.1]
  decide

/-! ## Helper lemmas: combiner renumbering -/

/-- Renumbering preserves the number of pages. -/
theorem renumberPages_length (maxE : Option Nat) (cid : String) (ci : Option ChunkInfoD)
    (sp : Nat) : ∀ (l : List PageD) (j : Nat),
    (renumberPages maxE cid ci sp j l).length = l.length := by
  intro l
  induction l with
  | nil => intro j; simp [renumberPages]
  | cons p ps ih => intro j; simp [renumberPages, ih]

/-- Renumbered page numbers are the (possibly capped) consecutive run
starting at `start_page + j`. -/
theorem renumberPages_map_number (maxE : Option Nat) (cid : String) (ci : Option ChunkInfoD)
    (sp : Nat) : ∀ (l : List PageD) (j : Nat),
    (renumberPages maxE cid ci sp j l).map (fun p => p.page_number) =
      (List.range' (sp + j) l.length).map (pyClampPage maxE) := by
  intro l
  induction l with
  | nil => intro j; simp [renumberPages]
  | cons p ps ih =>
      intro j
      simp only [renumberPages, renumberPage, List.map_cons, List.length_cons]
      rw [List.range'_succ]
      simp only [List.map_cons, List.cons.injEq]
      refine ⟨trivial, ?_⟩
      have := ih (j + 1)
      rw [show sp + j + 1 = sp + (j + 1) by omega]
      exact this

/-- Renumbered page ids are `"page_{n}"` for the same run. -/
theorem renumberPages_map_id (maxE : Option Nat) (cid : String) (ci : Option ChunkInfoD)
    (sp : Nat) : ∀ (l : List PageD) (j : Nat),
    (renumberPages maxE cid ci sp j l).map (fun p => p.page_id) =
      (List.range' (sp + j) l.length).map
        (fun n => "page_" ++ toString (pyClampPage maxE n)) := by
  intro l
  induction l with
  | nil => intro j; simp [renumberPages]
  | cons p ps ih =>
      intro j
      simp only [renumberPages, renumberPage, List.map_cons, List.length_cons]
      rw [List.range'_succ]
      simp only [List.map_cons, List.cons.injEq]
      refine ⟨trivial, ?_⟩
      have := ih (j + 1)
      rw [show sp + j + 1 = sp + (j + 1) by omega]
      exact this

/-- Over aligned chunk results (all successful, `chunk_info` present,
contiguous recorded ranges, page counts matching the ranges), the loop
produces exactly the capped consecutive page numbering starting at the first
chunk's recorded start, with matching page ids, all chunks counted
successful and none failed. -/
theorem combineGo_aligned (maxE : Option Nat) :
    ∀ (crs : List ChunkResultD) (s i cur : Nat), ChunksAligned s crs →
      (combineGo maxE i cur crs).1.map (fun p => p.page_number) =
        (List.range' s (combineGo maxE i cur crs).1.length).map (pyClampPage maxE) ∧
      (combineGo maxE i cur crs).1.map (fun p => p.page_id) =
        (List.range' s (combineGo maxE i cur crs).1.length).map
          (fun n => "page_" ++ toString (pyClampPage maxE n)) ∧
      (combineGo maxE i cur crs).2.1 = crs.length ∧
      (combineGo maxE i cur crs).2.2.1 = 0 := by
  intro crs
  induction crs with
  | nil => intro s i cur _; simp [combineGo]
  | cons cr rest ih =>
      intro s i cur hal
      obtain ⟨hsucc, ci, hci, hstart, hle, hlen, hrest⟩ := hal
      have hIH := ih (ci.end_page + 1) (i + 1) (cur + cr.pages.length) hrest
      have hsp : (cr.chunk_info.map (fun c => c.start_page)).getD cur = s := by
        rw [hci]
        simpa using hstart
      simp only [combineGo, hsucc, if_true, hsp, List.map_append, List.length_append,
        renumberPages_length, List.length_cons]
      have harange : List.range' s (cr.pages.length + (combineGo maxE (i + 1) (cur + cr.pages.length) rest).1.length)
          = List.range' s cr.pages.length ++
            List.range' (ci.end_page + 1) (combineGo maxE (i + 1) (cur + cr.pages.length) rest).1.length := by
        have := List.range'_append s cr.pages.length
          (combineGo maxE (i + 1) (cur + cr.pages.length) rest).1.length 1
        rw [show s + 1 * cr.pages.length = ci.end_page + 1 by omega] at this
        exact (this.trans (by congr 1; omega)).symm
      rw [harange]
      simp only [List.map_append]
      have hn := renumberPages_map_number maxE ("chunk_" ++ toString (i + 1)) cr.chunk_info s cr.pages 0
      have hid := renumberPages_map_id maxE ("chunk_" ++ toString (i + 1)) cr.chunk_info s cr.pages 0
      rw [show s + 0 = s by omega] at hn hid
      refine ⟨?_, ?_, by simpa using hIH.2.2.1, hIH.2.2.2⟩
      · rw [hn, hIH.1]
      · rw [hid, hIH.2.1]

/-! ## Claim C7 -/

/-- C7. For aligned chunk results (every chunk successful with a recorded
range, ranges contiguous from `s1`, each chunk contributing exactly as many
pages as its range spans): each combined page's `page_number` is its chunk's
recorded `start_page` plus its 0-based position in the chunk, passed through
the cap (`pyClampPage`: a number exceeding a truthy `max_expected_pages` is
clamped to it — the accompanying warning is only written to the log), with
`page_id = "page_{n}"`, and the combination succeeds for every cap value
(clamping is never an error); with no cap the combined page numbers are
exactly the original document's consecutive numbering from `s1` and are
strictly increasing. -/
theorem combiner_renumbering (crs : List ChunkResultD) (fn : String) (s1 : Nat)
    (hne : crs ≠ []) (hal : ChunksAligned s1 crs) :
    (∀ maxE : Option Nat,
      (combine_chunk_results crs fn maxE).pages.map (fun p => p.page_number) =
        (List.range' s1 (combine_chunk_results crs fn maxE).pages.length).map (pyClampPage maxE) ∧
      (combine_chunk_results crs fn maxE).pages.map (fun p => p.page_id) =
        (List.range' s1 (combine_chunk_results crs fn maxE).pages.length).map
          (fun n => "page_" ++ toString (pyClampPage maxE n)) ∧
      (combine_chunk_results crs fn maxE).processing_info.success = true) ∧
    (combine_chunk_results crs fn none).pages.map (fun p => p.page_number) =
      List.range' s1 (combine_chunk_results crs fn none).pages.length ∧
    List.Chain' (· < ·) ((combine_chunk_results crs fn none).pages.map (fun p => p.page_number)) := by
  obtain ⟨first, rest, rfl⟩ : ∃ first rest, crs = first :: rest := by
    cases crs with
    | nil => exact absurd rfl hne
    | cons first rest => exact ⟨first, rest, rfl⟩
  have hmain : ∀ maxE : Option Nat,
      (combine_chunk_results (first :: rest) fn maxE).pages.map (fun p => p.page_number) =
        (List.range' s1 (combine_chunk_results (first :: rest) fn maxE).pages.length).map (pyClampPage maxE) ∧
      (combine_chunk_results (first :: rest) fn maxE).pages.map (fun p => p.page_id) =
        (List.range' s1 (combine_chunk_results (first :: rest) fn maxE).pages.length).map
          (fun n => "page_" ++ toString (pyClampPage maxE n)) ∧
      (combine_chunk_results (first :: rest) fn maxE).processing_info.success = true := by
    intro maxE
    have ha := combineGo_aligned maxE (first :: rest) s1 0 1 hal
    rw [combine_pages_eq]
    refine ⟨ha.1, ha.2.1, ?_⟩
    rw [combine_success_eq, ha.2.2.1, ha.2.2.2]
    simp
  have hid : pyClampPage none = fun n => n := funext fun n => rfl
  have hnone : (combine_chunk_results (first :: rest) fn none).pages.map (fun p => p.page_number) =
      List.range' s1 (combine_chunk_results (first :: rest) fn none).pages.length := by
    have := (hmain none).1
    rw [hid] at this
    simpa using this
  refine ⟨hmain, hnone, ?_⟩
  rw [hnone]
  exact (List.pairwise_lt_range' _ _ 1 (by omega)).chain'

/-- C7, witness: two aligned chunks covering pages 1-2 and 3-4 — uncapped
combination numbers the pages 1,2,3,4 with matching ids; a cap of 3 clamps
the last page number to 3 while the combination still succeeds. -/
theorem combiner_renumbering_witness :
    (combine_chunk_results [exampleChunk1, exampleChunk4] "f.pdf" none).pages.map
      (fun p => p.page_number) = [1, 2, 3, 4] ∧
    (combine_chunk_results [exampleChunk1, exampleChunk4] "f.pdf" none).pages.map
      (fun p => p.page_id) = ["page_1", "page_2", "page_3", "page_4"] ∧
    (combine_chunk_results [exampleChunk1, exampleChunk4] "f.pdf" (some 3)).pages.map
      (fun p => p.page_number) = [1, 2, 3, 3] ∧
    (combine_chunk_results [exampleChunk1, exampleChunk4] "f.pdf" (some 3)).processing_info.success = true ∧
    List.Chain' (· < ·)
      ((combine_chunk_results [exampleChunk1, exampleChunk4] "f.pdf" none).pages.map
        (fun p => p.page_number)) := by
  have hal : ChunksAligned 1 [exampleChunk1, exampleChunk4] := by
    refine ⟨rfl, ⟨"c1", 1, 2⟩, rfl, rfl, by decide, by decide,
      rfl, ⟨"c4", 3, 4⟩, rfl, rfl, by decide, by decide, trivial⟩
  have h := combiner_renumbering [exampleChunk1, exampleChunk4] "f.pdf" 1 (by decide) hal
  refine ⟨?_, ?_, ?_, (h.1 (some 3)).2.2, ?_⟩
  · rw [h.2.1]
    decide
  · rw [(h.1 none).2.1]
    decide
  · rw [(h.1 (some 3)).1]
    decide
  · exact h.2.2

/-! ## Helper lemmas: batch scheduler -/

/-- With the flag never set, a sequential group classifies each of its units
exactly once. -/
theorem groupSeq_counts_nocancel (run : DocItem → SingleResult) (cancel : CancelFlag)
    (hc : ∀ n, cancel n = false) :
    ∀ (docs : List DocItem) (c : Nat),
      (groupSeq run cancel c docs).successful.length +
        (groupSeq run cancel c docs).failed.length = docs.length := by
  intro docs
  induction docs with
  | nil => intro c; simp [groupSeq]
  | cons d rest ih =>
      intro c
      simp only [groupSeq, hc, Bool.false_eq_true, if_false]
      by_cases h : (run d).success <;> simp [h, List.length_cons] <;> rw [← ih (c + 1)] <;> omega

/-- With the flag never set, the collection loop classifies every completed
result exactly once. -/
theorem collectLoop_counts_nocancel (cancel : CancelFlag) (hc : ∀ n, cancel n = false) :
    ∀ (results : List SingleResult) (c : Nat),
      (collectLoop cancel c results).1.length +
        (collectLoop cancel c results).2.1.length = results.length := by
  intro results
  induction results with
  | nil => intro c; simp [collectLoop]
  | cons r rest ih =>
      intro c
      simp only [collectLoop, hc, Bool.false_eq_true, if_false]
      by_cases h : r.success <;> simp [h, List.length_cons] <;> rw [← ih (c + 1)] <;> omega

/-- With the flag never set, a processor group of any concurrency classifies
each of its units exactly once (the completion order being any permutation of
the group). -/
theorem processProcessorGroup_counts_nocancel (run : DocItem → SingleResult)
    (cancel : CancelFlag) (reorder : List DocItem → List DocItem)
    (hc : ∀ n, cancel n = false) (hre : ∀ l, (reorder l).Perm l)
    (c : Nat) (docs : List DocItem) (concurrency : Nat) :
    (processProcessorGroup run cancel reorder c docs concurrency).successful.length +
      (processProcessorGroup run cancel reorder c docs concurrency).failed.length =
      docs.length := by
  by_cases h : concurrency = 1
  · simp only [processProcessorGroup, h, if_true]
    exact groupSeq_counts_nocancel run cancel hc docs c
  · simp only [processProcessorGroup, h, if_false, groupPar]
    have := collectLoop_counts_nocancel cancel hc ((reorder docs).map run) c
    simpa [(hre docs).length_eq] using this

/-- With the flag never set, the group loop classifies, over all keys, one
entry per item of each key's filtered group. -/
theorem batchGroupsLoop_counts (run : DocItem → SingleResult) (cancel : CancelFlag)
    (reorder : List DocItem → List DocItem) (conc : String → Nat)
    (hc : ∀ n, cancel n = false) (hre : ∀ l, (reorder l).Perm l) :
    ∀ (keys : List String) (items : List DocItem) (c : Nat),
      (batchGroupsLoop run cancel reorder conc items c keys).successful.length +
        (batchGroupsLoop run cancel reorder conc items c keys).failed.length =
        (keys.map (fun k => (items.filter (fun it => processorTypeOf it = k)).length)).sum := by
  intro keys
  induction keys with
  | nil => intro items c; simp [batchGroupsLoop]
  | cons k ks ih =>
      intro items c
      simp only [batchGroupsLoop, hc, Bool.false_eq_true, if_false, List.map_cons, List.sum_cons]
      have hg := processProcessorGroup_counts_nocancel run cancel reorder hc hre (c + 1)
        (items.filter (fun it => processorTypeOf it = k)) (conc k)
      have hrest := ih items
        (processProcessorGroup run cancel reorder (c + 1)
          (items.filter (fun it => processorTypeOf it = k)) (conc k)).checks
      simp only [List.length_append]
      omega

/-- Grouping by processor type partitions the batch: for a duplicate-free key
list covering every item's type, the group sizes sum to the batch size. -/
theorem sum_filter_lengths :
    ∀ (keys : List String) (items : List DocItem),
      keys.Nodup → (∀ it ∈ items, processorTypeOf it ∈ keys) →
      (keys.map (fun k => (items.filter (fun it => processorTypeOf it = k)).length)).sum =
        items.length := by
  intro keys
  induction keys with
  | nil =>
      intro items _ hcov
      have : items = [] := by
        cases items with
        | nil => rfl
        | cons a t => exact absurd (hcov a (by simp)) (by simp)
      simp [this]
  | cons k ks ih =>
      intro items hnd hcov
      simp only [List.map_cons, List.sum_cons]
      have hsplit := (List.length_eq_length_filter_add
        (l := items) (fun it => processorTypeOf it = k)).symm
      have hmap : ks.map (fun q => (items.filter (fun it => processorTypeOf it = q)).length) =
          ks.map (fun q =>
            ((items.filter (fun it => !(processorTypeOf it = k))).filter
              (fun it => processorTypeOf it = q)).length) := by
        apply List.map_congr_left
        intro q hq
        have hne : q ≠ k := by
          intro he
          subst he
          exact (List.nodup_cons.mp hnd).1 hq
        congr 1
        rw [List.filter_filter]
        apply List.filter_congr
        intro it _
        by_cases hit : processorTypeOf it = q
        · simp [hit, hne]
        · simp [hit]
      rw [hmap, ih (items.filter (fun it => !(processorTypeOf it = k))) (List.nodup_cons.mp hnd).2 ?hcov]
      · omega
      case hcov =>
        intro it hit
        have h1 := List.of_mem_filter hit
        have h2 := hcov it (List.mem_of_mem_filter hit)
        simp only [Bool.not_eq_true', decide_eq_false_iff_not] at h1
        rcases List.mem_cons.mp h2 with h | h
        · exact absurd h h1
        · exact h

/-- First-occurrence deduplication yields a duplicate-free key list. -/
theorem firstOccurrences_nodup : ∀ (l : List String), (firstOccurrences l).Nodup := by
  intro l
  induction l with
  | nil => simp [firstOccurrences]
  | cons k rest ih =>
      simp only [firstOccurrences]
      refine List.nodup_cons.mpr ⟨?_, ih.filter _⟩
      intro hmem
      have := List.of_mem_filter hmem
      simp at this

/-- First-occurrence deduplication keeps every element. -/
theorem mem_firstOccurrences : ∀ (l : List String) (a : String), a ∈ l → a ∈ firstOccurrences l := by
  intro l
  induction l with
  | nil => intro a ha; simp at ha
  | cons k rest ih =>
      intro a ha
      simp only [firstOccurrences]
      rcases List.mem_cons.mp ha with h | h
      · exact h ▸ List.mem_cons_self _ _
      · by_cases hak : a = k
        · exact hak ▸ List.mem_cons_self _ _
        · exact List.mem_cons_of_mem _ (List.mem_filter.mpr ⟨ih a h, by simpa using hak⟩)

/-! ## Claim C8 -/

/-- C8. For every batch of M documents, when no cancellation is requested,
the returned successful-list length plus failed-list length equals M — for
every grouping the legacy mapping induces, every per-group concurrency
setting (`maxDocs`, `maxProcs` arbitrary), every pool completion order, and
every behaviour of `process_document` including raising an exception (the
oracle `pd` may return `.error`, which `_process_single_document` converts to
a failed entry): every unit is classified exactly once. -/
theorem batch_success_failed_partition (pd : DocItem → Collab PDReturn)
    (cancel : CancelFlag) (reorder : List DocItem → List DocItem)
    (maxDocs maxProcs : Nat) (items : List DocItem)
    (hc : ∀ n, cancel n = false) (hre : ∀ l, (reorder l).Perm l) :
    (process_batch (processSingleDocument pd) cancel reorder maxDocs maxProcs items).successful.length +
      (process_batch (processSingleDocument pd) cancel reorder maxDocs maxProcs items).failed.length =
      items.length := by
  unfold process_batch
  rw [batchGroupsLoop_counts (processSingleDocument pd) cancel reorder _ hc hre]
  exact sum_filter_lengths _ items (firstOccurrences_nodup _)
    (fun it hit => mem_firstOccurrences _ _ (List.mem_map_of_mem _ hit))

/-- C8, witness: a batch of three documents split across the two processor
groups (two 'manual' → DataLabs, one 'diagram' → PyMuPDF), one of which
raises — successful plus failed is exactly 3. -/
theorem batch_success_failed_partition_witness :
    (process_batch
        (processSingleDocument (fun it =>
          if it.document.etag = "eb" then Except.error "thread blew up"
          else Except.ok { success := true }))
        (fun _ => false) id 3 2
        [exampleItemA, exampleItemB, exampleItemC]).successful.length +
      (process_batch
        (processSingleDocument (fun it =>
          if it.document.etag = "eb" then Except.error "thread blew up"
          else Except.ok { success := true }))
        (fun _ => false) id 3 2
        [exampleItemA, exampleItemB, exampleItemC]).failed.length = 3 :=
  batch_success_failed_partition
    (fun it => if it.document.etag = "eb" then Except.error "thread blew up"
      else Except.ok { success := true })
    (fun _ => false) id 3 2 [exampleItemA, exampleItemB, exampleItemC]
    (fun _ => rfl) (fun l => List.Perm.refl l)

/-! ## Claim C9 -/

/-- C9, counterexample. The claim — cancellation "stops before processing the
next unprocessed unit (the flag is checked between units and before starting
a new group; no new unit begins after the flag is observed)" — is false for
parallel groups: `_process_processor_group` submits every unit of the group
to the `ThreadPoolExecutor` up front, and leaving the `with` block runs
`shutdown(wait=True)`, which waits for queued futures without cancelling
them, so units still execute after the flag is observed; the flag only stops
result collection. Concretely: two 'manual' documents form one DataLabs group
with concurrency `min(3, 4) = 3 > 1`; the flag turns true at global check 2
(the batch-level check is check 0, the check before collecting the first
result is check 1) — both units are executed, yet only one classified result
is returned, so a unit that was never collected (and would count as
"unprocessed" by the claim) was processed anyway. -/
theorem batch_cancellation_counterexample :
    (process_batch exampleRunOk (cancelAtCheck 2) id 3 2
      [exampleItemA, exampleItemB]).executed.length = 2 ∧
    (process_batch exampleRunOk (cancelAtCheck 2) id 3 2
        [exampleItemA, exampleItemB]).successful.length +
      (process_batch exampleRunOk (cancelAtCheck 2) id 3 2
        [exampleItemA, exampleItemB]).failed.length = 1 ∧
    ¬ ((process_batch exampleRunOk (cancelAtCheck 2) id 3 2
          [exampleItemA, exampleItemB]).executed.length ≤
        (process_batch exampleRunOk (cancelAtCheck 2) id 3 2
            [exampleItemA, exampleItemB]).successful.length +
          (process_batch exampleRunOk (cancelAtCheck 2) id 3 2
            [exampleItemA, exampleItemB]).failed.length) := by
  refine ⟨by decide, by decide, by decide⟩

/-- A sequential group under a threshold flag executes exactly the first
`N - c` units and classifies exactly those. -/
theorem groupSeq_cancelAt (run : DocItem → SingleResult) (N : Nat) :
    ∀ (docs : List DocItem) (c : Nat),
      (groupSeq run (cancelAtCheck N) c docs).executed = docs.take (N - c) ∧
      (groupSeq run (cancelAtCheck N) c docs).successful =
        ((docs.take (N - c)).map run).filter (fun r => r.success) ∧
      (groupSeq run (cancelAtCheck N) c docs).failed =
        ((docs.take (N - c)).map run).filter (fun r => !r.success) := by
  intro docs
  induction docs with
  | nil => intro c; simp [groupSeq]
  | cons d rest ih =>
      intro c
      by_cases hN : N ≤ c
      · have : N - c = 0 := by omega
        simp [groupSeq, cancelAtCheck, hN, this]
      · have hstep : N - c = (N - (c + 1)) + 1 := by omega
        have hcan : cancelAtCheck N c = false := by simp [cancelAtCheck]; omega
        simp only [groupSeq, hcan, Bool.false_eq_true, if_false, hstep, List.take_succ_cons,
          List.map_cons]
        obtain ⟨he, hs, hf⟩ := ih (c + 1)
        by_cases h : (run d).success <;> simp [h, he, hs, hf]

/-- The collection loop under a threshold flag keeps exactly the first
`N - c` completed results, classified in order. -/
theorem collectLoop_cancelAt (N : Nat) :
    ∀ (results : List SingleResult) (c : Nat),
      (collectLoop (cancelAtCheck N) c results).1 =
        (results.take (N - c)).filter (fun r => r.success) ∧
      (collectLoop (cancelAtCheck N) c results).2.1 =
        (results.take (N - c)).filter (fun r => !r.success) := by
  intro results
  induction results with
  | nil => intro c; simp [collectLoop]
  | cons r rest ih =>
      intro c
      by_cases hN : N ≤ c
      · have : N - c = 0 := by omega
        simp [collectLoop, cancelAtCheck, hN, this]
      · have hstep : N - c = (N - (c + 1)) + 1 := by omega
        have hcan : cancelAtCheck N c = false := by simp [cancelAtCheck]; omega
        simp only [collectLoop, hcan, Bool.false_eq_true, if_false, hstep, List.take_succ_cons]
        obtain ⟨hs, hf⟩ := ih (c + 1)
        by_cases h : r.success <;> simp [h, hs, hf]

/-- C9, amended: for a monotone cancellation flag that turns true at global
check `N`: (1) a sequential group (concurrency 1) checks the flag before each
unit and stops before the next unprocessed unit — the executed units are
exactly the first `N - c` of the group, and the returned lists classify
exactly those units (already-collected results preserved); (2) a parallel
group still executes every submitted unit, while the returned lists classify
exactly the results collected before the flag was observed (the first `N - c`
of the completion order — already-collected results preserved, later ones
dropped); (3) the flag is checked before starting each new group, and a group
whose check observes the flag produces nothing. -/
theorem batch_cancellation_behavior :
    (∀ (run : DocItem → SingleResult) (N c : Nat) (docs : List DocItem),
      (groupSeq run (cancelAtCheck N) c docs).executed = docs.take (N - c) ∧
      (groupSeq run (cancelAtCheck N) c docs).successful =
        ((docs.take (N - c)).map run).filter (fun r => r.success) ∧
      (groupSeq run (cancelAtCheck N) c docs).failed =
        ((docs.take (N - c)).map run).filter (fun r => !r.success)) ∧
    (∀ (run : DocItem → SingleResult) (N c : Nat) (docs completed : List DocItem),
      (groupPar run (cancelAtCheck N) c docs completed).executed = docs ∧
      (groupPar run (cancelAtCheck N) c docs completed).successful =
        ((completed.map run).take (N - c)).filter (fun r => r.success) ∧
      (groupPar run (cancelAtCheck N) c docs completed).failed =
        ((completed.map run).take (N - c)).filter (fun r => !r.success)) ∧
    (∀ (run : DocItem → SingleResult) (N c : Nat)
       (reorder : List DocItem → List DocItem) (conc : String → Nat)
       (items : List DocItem) (k : String) (ks : List String), N ≤ c →
      batchGroupsLoop run (cancelAtCheck N) reorder conc items c (k :: ks) =
        ⟨[], [], [], c + 1⟩) := by
  refine ⟨?_, ?_, ?_⟩
  · intro run N c docs
    exact groupSeq_cancelAt run N docs c
  · intro run N c docs completed
    obtain ⟨hs, hf⟩ := collectLoop_cancelAt N (completed.map run) c
    exact ⟨rfl, hs, hf⟩
  · intro run N c reorder conc items k ks hN
    simp [batchGroupsLoop, cancelAtCheck, hN]

/-- C9, witness: the amended behaviour at concrete inputs — a sequential
group of two units cancelled after one executes only the first; a parallel
group of two cancelled after one collection still executes both but returns
one result; a group whose boundary check observes the flag produces
nothing. -/
theorem batch_cancellation_behavior_witness :
    (groupSeq exampleRunOk (cancelAtCheck 2) 1 [exampleItemA, exampleItemB]).executed =
      [exampleItemA] ∧
    (groupPar exampleRunOk (cancelAtCheck 2) 1 [exampleItemA, exampleItemB]
      [exampleItemB, exampleItemA]).executed = [exampleItemA, exampleItemB] ∧
    (groupPar exampleRunOk (cancelAtCheck 2) 1 [exampleItemA, exampleItemB]
      [exampleItemB, exampleItemA]).successful = [exampleRunOk exampleItemB] ∧
    batchGroupsLoop exampleRunOk (cancelAtCheck 1) id (fun _ => 1) [exampleItemA] 1
      ["DataLabsProcessor"] = ⟨[], [], [], 2⟩ := by
  refine ⟨?_, ?_, ?_,
    batch_cancellation_behavior.2.2 exampleRunOk 1 1 id (fun _ => 1) [exampleItemA]
      "DataLabsProcessor" [] (by decide)⟩
  · rw [(batch_cancellation_behavior.1 exampleRunOk 2 1 [exampleItemA, exampleItemB]).1]
    decide
  · exact (batch_cancellation_behavior.2.1 exampleRunOk 2 1 [exampleItemA, exampleItemB]
      [exampleItemB, exampleItemA]).1
  · rw [(batch_cancellation_behavior.2.1 exampleRunOk 2 1 [exampleItemA, exampleItemB]
      [exampleItemB, exampleItemA]).2.1]
    decide
